import Mathlib

/-!
Verification of the GenMaki makefile-format converter core: format
detection, the four dialect parsers, the option/command mapping tables,
and the dialect emitters.  Strings are modelled as `List Char`; a file is
the list of strings delivered by the line reader `FGets`, which keeps the
terminating newline of every line: each line of a file ends in a newline
character, except that the final line of a file with no trailing newline
does not.  `trim_whitespace` strips only spaces and tabs, so a trimmed
newline-terminated line still ends in the newline.  Fallible operations
return `Option`.
-/

/-- Characters treated as whitespace by `trim_whitespace` / `skip_whitespace`
in the source (only space and tab). -/
def isBlankChar (c : Char) : Bool := c = ' ' || c = '\t'

/-- Model of C strings. -/
abbrev Str := List Char

/-- Shorthand for turning a Lean string literal into a `Str`. -/
def lit (s : String) : Str := s.toList

/-- Mirrors `trim_whitespace`: drop leading blanks, then drop trailing
blanks. -/
def trim_whitespace (s : Str) : Str :=
  ((s.dropWhile isBlankChar).reverse.dropWhile isBlankChar).reverse

/-- Mirrors `skip_whitespace`: drop leading blanks only. -/
def skip_whitespace (s : Str) : Str := s.dropWhile isBlankChar

/-- Mirrors a `strchr(s, c) != NULL` test: does `s` contain `c`. -/
def strchrB (s : Str) (c : Char) : Bool := s.any (fun x => x = c)

/-- Mirrors a `strstr(hay, needle) != NULL` test: does `needle` occur as a
contiguous substring of `hay`. -/
def strstrB (hay needle : Str) : Bool :=
  match hay with
  | [] => needle.isEmpty
  | _ :: t => needle.isPrefixOf hay || strstrB t needle

/-- Mirrors `my_stricmp(s, t) == 0`: ASCII case-insensitive equality. -/
def striEq (s t : Str) : Bool := s.map Char.toLower == t.map Char.toLower

/-- Splitting a string at the first occurrence of character `c`: the part
before it and the part after it (mirrors `*strchr(s,c) = '\0'`). -/
def splitAtChar (s : Str) (c : Char) : Str × Str :=
  (s.takeWhile (fun x => x ≠ c), (s.dropWhile (fun x => x ≠ c)).drop 1)

/-- Splitting a string at the first occurrence of the substring `pat`
(mirrors `double_colon = strstr(trimmed, "::"); *double_colon = '\0'`). -/
def splitAtSub (s pat : Str) : Str × Str :=
  match s with
  | [] => ([], [])
  | h :: t =>
    if pat.isPrefixOf (h :: t) then ([], (h :: t).drop pat.length)
    else
      let p := splitAtSub t pat
      (h :: p.1, p.2)

/-- Quote stripping from `parse_gnu_makefile`: if the value begins and ends
with a double quote, remove both.  A value taken from a newline-terminated
line ends in the newline, so the check only fires on a file's final
newline-less line. -/
def strip_quotes (v : Str) : Str :=
  if v.head? = some '"' && v.getLast? = some '"' then v.dropLast.drop 1 else v

/-- Capacity limits from the source. -/
def MAX_VARIABLES : Nat := 64

/-- Maximum number of rules stored in a model. -/
def MAX_RULES : Nat := 128

/-- Maximum number of commands per rule (also used as the comment-array
capacity in the source). -/
def MAX_COMMANDS : Nat := 256

/-- The `MakefileFormat` enumeration. -/
inductive MakefileFormat where
  | FORMAT_UNKNOWN
  | FORMAT_GNU_MAKE
  | FORMAT_SAS_C
  | FORMAT_DICE
  | FORMAT_LATTICE
deriving DecidableEq, Repr

open MakefileFormat

/-- The `Variable` structure. -/
structure Variable where
  name : Str
  value : Str
  is_immediate : Bool
deriving DecidableEq, Repr

/-- The `Command` structure. -/
structure Command where
  command : Str
  is_continuation : Bool
deriving DecidableEq, Repr

/-- The `Rule` structure. -/
structure Rule where
  targets : Str
  dependencies : Str
  commands : List Command
  is_pattern_rule : Bool
  is_dice_form4 : Bool
deriving DecidableEq, Repr

/-- The `Makefile` model.  The comment array is reallocated zero-filled on
every stored comment in the source, so it is a list of optional entries. -/
structure Makefile where
  format : MakefileFormat
  vars : List Variable
  rules : List Rule
  comments : List (Option Str)
deriving DecidableEq, Repr

/-- Append a variable if below capacity (the guarded store in each parser's
variable branch). -/
def appendVar (m : Makefile) (v : Variable) : Makefile :=
  if m.vars.length < MAX_VARIABLES then
    { m with vars := m.vars ++ [v] }
  else m

/-- Store a comment: the source allocates a fresh zero-filled array of
`MAX_COMMANDS` entries, losing all previously stored comments, and writes
the new comment at index `comment_count`. -/
def storeComment (m : Makefile) (t : Str) : Makefile :=
  if m.comments.length < MAX_COMMANDS then
    { m with comments := List.replicate m.comments.length none ++ [some t] }
  else m

/-- Append a command to the last rule if that rule is below its command
capacity (`current_rule` always points at the most recently appended rule). -/
def appendCmdLast (m : Makefile) (c : Str) : Makefile :=
  match m.rules.getLast? with
  | none => m
  | some r =>
    if r.commands.length < MAX_COMMANDS then
      { m with rules :=
          m.rules.dropLast ++ [{ r with commands := r.commands ++ [⟨c, false⟩] }] }
    else m

/-- Does the line start with a blank character (the dead command-line test
`*trimmed == '\t' || *trimmed == ' '` applied to the already-trimmed line). -/
def headBlank (s : Str) : Bool :=
  match s.head? with
  | some c => isBlankChar c
  | none => false

/-- Parser state for the GNU, SAS/C and DICE parsers: the model being built
plus the `in_rule` flag (`current_rule`, when set, is the last rule of the
model). -/
structure ParseState where
  makefile : Makefile
  in_rule : Bool
deriving DecidableEq, Repr

/-- One iteration of the `parse_gnu_makefile` loop on a single line. -/
def parse_gnu_line (st : ParseState) (line : Str) : ParseState :=
  let trimmed := trim_whitespace line
  if trimmed = [] then
    { st with in_rule := false }
  else if trimmed.head? = some '#' then
    { st with makefile := storeComment st.makefile trimmed }
  else if strchrB trimmed '=' && !strchrB trimmed ':' then
    let p := splitAtChar trimmed '='
    let name := trim_whitespace p.1
    let value := strip_quotes (trim_whitespace p.2)
    { makefile := appendVar st.makefile ⟨name, value, false⟩, in_rule := false }
  else if strchrB trimmed ':' then
    let p := splitAtChar trimmed ':'
    let targets := trim_whitespace p.1
    let deps := trim_whitespace p.2
    if st.makefile.rules.length < MAX_RULES then
      { makefile := { st.makefile with rules := st.makefile.rules ++
          [⟨targets, deps, [], strchrB targets '%', false⟩] },
        in_rule := true }
    else st
  else if st.in_rule && !st.makefile.rules.isEmpty && headBlank trimmed then
    let command := skip_whitespace trimmed
    if command = [] then st
    else { st with makefile := appendCmdLast st.makefile command }
  else
    { st with in_rule := false }

/-- One iteration of the `parse_sas_makefile` loop on a single line. -/
def parse_sas_line (st : ParseState) (line : Str) : ParseState :=
  let trimmed := trim_whitespace line
  if trimmed = [] then
    { st with in_rule := false }
  else if trimmed.head? = some ';' then
    { st with makefile := storeComment st.makefile trimmed }
  else if strchrB trimmed '=' && !strchrB trimmed ':' then
    let p := splitAtChar trimmed '='
    let name := trim_whitespace p.1
    let value := trim_whitespace p.2
    { makefile := appendVar st.makefile ⟨name, value, false⟩, in_rule := false }
  else if strstrB trimmed (lit ".c.o:") || strstrB trimmed (lit ".s.o:") then
    if st.makefile.rules.length < MAX_RULES then
      { makefile := { st.makefile with rules := st.makefile.rules ++
          [⟨lit "*.o", lit "*.c", [], true, false⟩] },
        in_rule := true }
    else st
  else if strchrB trimmed ':' then
    let p := splitAtChar trimmed ':'
    let targets := trim_whitespace p.1
    let deps := trim_whitespace p.2
    if st.makefile.rules.length < MAX_RULES then
      { makefile := { st.makefile with rules := st.makefile.rules ++
          [⟨targets, deps, [], false, false⟩] },
        in_rule := true }
    else st
  else if st.in_rule && !st.makefile.rules.isEmpty && headBlank trimmed then
    let command := skip_whitespace trimmed
    if command = [] then st
    else { st with makefile := appendCmdLast st.makefile command }
  else
    { st with in_rule := false }

/-- One iteration of the `parse_dice_makefile` loop on a single line. -/
def parse_dice_line (st : ParseState) (line : Str) : ParseState :=
  let trimmed := trim_whitespace line
  if trimmed = [] then
    { st with in_rule := false }
  else if trimmed.head? = some '#' then
    { st with makefile := storeComment st.makefile trimmed }
  else if strchrB trimmed '=' && !strchrB trimmed ':' then
    let p := splitAtChar trimmed '='
    let name := trim_whitespace p.1
    let value := trim_whitespace p.2
    { makefile := appendVar st.makefile ⟨name, value, true⟩, in_rule := false }
  else if strstrB trimmed (lit "::") then
    let p := splitAtSub trimmed (lit "::")
    let targets := trim_whitespace p.1
    let deps := trim_whitespace p.2
    if st.makefile.rules.length < MAX_RULES then
      { makefile := { st.makefile with rules := st.makefile.rules ++
          [⟨targets, deps, [], false, true⟩] },
        in_rule := true }
    else st
  else if strchrB trimmed ':' then
    let p := splitAtChar trimmed ':'
    let targets := trim_whitespace p.1
    let deps := trim_whitespace p.2
    if st.makefile.rules.length < MAX_RULES then
      { makefile := { st.makefile with rules := st.makefile.rules ++
          [⟨targets, deps, [], false, false⟩] },
        in_rule := true }
    else st
  else if st.in_rule && !st.makefile.rules.isEmpty && headBlank trimmed then
    let command := skip_whitespace trimmed
    if command = [] then st
    else { st with makefile := appendCmdLast st.makefile command }
  else
    { st with in_rule := false }

/-- Parser state for `parse_lattice_makefile`: model, `in_rule`,
`in_with_block`, `in_continuation` and the `full_line` join buffer. -/
structure LatState where
  makefile : Makefile
  in_rule : Bool
  in_with : Bool
  in_cont : Bool
  full_line : Str
deriving DecidableEq, Repr

/-- Processing of a completed logical line in `parse_lattice_makefile`
(the part of the loop body after the continuation joining).  Branches that
`continue` in the source leave `full_line` untouched; the remaining
branches reset it.  A newline-terminated logical line never compares
equal to `WITH` and never trims to the empty string, so on such lines the
`WITH` branch and the blank-line branch cannot fire. -/
def processLat (st : LatState) : LatState :=
  let trimmed := trim_whitespace st.full_line
  if trimmed = [] then
    if st.in_with then { st with in_with := false }
    else { st with in_rule := false }
  else if trimmed.head? = some ';' then
    { st with makefile := storeComment st.makefile trimmed }
  else if striEq trimmed (lit "WITH") then
    { st with in_with := true }
  else if strchrB trimmed '=' && !strchrB trimmed ':' then
    let p := splitAtChar trimmed '='
    let name := trim_whitespace p.1
    let value := trim_whitespace p.2
    { st with
      makefile := appendVar st.makefile ⟨name, value, false⟩
      in_rule := false }
  else if strstrB trimmed (lit ".c.o:") || strstrB trimmed (lit ".s.o:") then
    if st.makefile.rules.length < MAX_RULES then
      { st with
        makefile := { st.makefile with rules := st.makefile.rules ++
          [⟨lit "*.o", lit "*.c", [], true, false⟩] }
        in_rule := true }
    else st
  else if strchrB trimmed ':' then
    let p := splitAtChar trimmed ':'
    let targets := trim_whitespace p.1
    let deps := trim_whitespace p.2
    if st.makefile.rules.length < MAX_RULES then
      { st with
        makefile := { st.makefile with rules := st.makefile.rules ++
          [⟨targets, deps, [], false, false⟩] }
        in_rule := true }
    else st
  else if st.in_rule && !st.makefile.rules.isEmpty && headBlank trimmed then
    let command := skip_whitespace trimmed
    if command = [] then { st with full_line := [] }
    else { st with makefile := appendCmdLast st.makefile command, full_line := [] }
  else if st.in_with then
    if !st.makefile.rules.isEmpty then
      { st with makefile := appendCmdLast st.makefile trimmed, full_line := [] }
    else { st with full_line := [] }
  else
    { st with in_rule := false, full_line := [] }

/-- One iteration of the `parse_lattice_makefile` loop on a physical line,
including backslash continuation joining into the 2048-byte `full_line`
buffer.  A newline-terminated line ends in the newline, not in a
backslash, so the continuation branches only fire on a file's final
newline-less line. -/
def parse_lattice_line (st : LatState) (line : Str) : LatState :=
  let line_len := line.length
  if line.getLast? = some '\\' && decide (st.full_line.length + line_len < 2047) then
    { st with full_line := st.full_line ++ line.dropLast, in_cont := true }
  else if line.getLast? = some '\\' then
    -- buffer overflow on a continuation line: the stripped line is lost and
    -- the stale buffer is processed
    processLat st
  else if st.in_cont then
    let buf := if st.full_line.length + line_len < 2047 then st.full_line ++ line
               else st.full_line
    processLat { st with full_line := buf, in_cont := false }
  else
    processLat { st with full_line := line }

/-- An empty model for a given detected format (`parse_makefile` zero-fills
the structure and sets `format` beforehand). -/
def emptyMakefile (fmt : MakefileFormat) : Makefile :=
  ⟨fmt, [], [], []⟩

/-- The `parse_gnu_makefile` loop over all lines of the file. -/
def parse_gnu_makefile (lines : List Str) : Makefile :=
  (lines.foldl parse_gnu_line ⟨emptyMakefile FORMAT_GNU_MAKE, false⟩).makefile

/-- The `parse_sas_makefile` loop over all lines of the file. -/
def parse_sas_makefile (lines : List Str) : Makefile :=
  (lines.foldl parse_sas_line ⟨emptyMakefile FORMAT_SAS_C, false⟩).makefile

/-- The `parse_dice_makefile` loop over all lines of the file. -/
def parse_dice_makefile (lines : List Str) : Makefile :=
  (lines.foldl parse_dice_line ⟨emptyMakefile FORMAT_DICE, false⟩).makefile

/-- The `parse_lattice_makefile` loop over all lines of the file. -/
def parse_lattice_makefile (lines : List Str) : Makefile :=
  (lines.foldl parse_lattice_line
    ⟨emptyMakefile FORMAT_LATTICE, false, false, false, []⟩).makefile

/-- Dispatch of `parse_makefile` on the detected format; `none` models the
`success = FALSE` default branch. -/
def parse_makefile (fmt : MakefileFormat) (lines : List Str) : Option Makefile :=
  match fmt with
  | FORMAT_GNU_MAKE => some (parse_gnu_makefile lines)
  | FORMAT_SAS_C => some (parse_sas_makefile lines)
  | FORMAT_DICE => some (parse_dice_makefile lines)
  | FORMAT_LATTICE => some (parse_lattice_makefile lines)
  | FORMAT_UNKNOWN => none

/-- Lattice-to-SAS/C branch of `map_compiler_option`, in source order. -/
def map_lattice_to_sas (o : Str) : Str :=
  if striEq o (lit "-O") then lit "OPTIMIZE"
  else if striEq o (lit "-DNONAMES") then lit "NOSTANDARDIO"
  else if strstrB o (lit "-DDEFBLOCKING=") then []
  else if strstrB o (lit "-I") then lit "INCLUDEDIR=" ++ o.drop 2 ++ lit ":"
  else if striEq o (lit "-v") then lit "VERBOSE"
  else if striEq o (lit "-d2") || striEq o (lit "-y") then lit "DEBUG=L"
  else if striEq o (lit "-ms") then lit "DATA=NEAR"
  else if strstrB o (lit "-D") then lit "DEF=" ++ o.drop 2
  else if striEq o (lit "-w") then lit "IGN=A"
  else if striEq o (lit "-g") then lit "DEBUG=FF"
  else if striEq o (lit "-c") then lit "OBJNAME"
  else if striEq o (lit "-E") then lit "PPONLY"
  else if striEq o (lit "-a") then lit "DISASM"
  else o

/-- Lattice-to-DICE branch of `map_compiler_option`, in source order. -/
def map_lattice_to_dice (o : Str) : Str :=
  if striEq o (lit "-O") then lit "-O"
  else if striEq o (lit "-DNONAMES") then []
  else if strstrB o (lit "-DDEFBLOCKING=") then []
  else if strstrB o (lit "-I") then o
  else if striEq o (lit "-v") then lit "-v"
  else if striEq o (lit "-d2") || striEq o (lit "-y") then lit "-d1"
  else if striEq o (lit "-ms") then lit "-ms"
  else if strstrB o (lit "-D") then o
  else if striEq o (lit "-w") then []
  else if striEq o (lit "-g") then lit "-s -d1"
  else if striEq o (lit "-c") then lit "-c"
  else if striEq o (lit "-E") then lit "-E"
  else if striEq o (lit "-a") then lit "-a"
  else o

/-- Lattice-to-GNU branch of `map_compiler_option`, in source order. -/
def map_lattice_to_gnu (o : Str) : Str :=
  if striEq o (lit "-O") then lit "-O2"
  else if striEq o (lit "-DNONAMES") then []
  else if strstrB o (lit "-DDEFBLOCKING=") then []
  else if strstrB o (lit "-I") then o
  else if striEq o (lit "-v") then lit "-v"
  else if striEq o (lit "-d2") || striEq o (lit "-y") then lit "-g"
  else if striEq o (lit "-ms") then lit "-m68000"
  else if strstrB o (lit "-D") then o
  else if striEq o (lit "-w") then lit "-w"
  else if striEq o (lit "-g") then lit "-g"
  else if striEq o (lit "-c") then lit "-c"
  else if striEq o (lit "-E") then lit "-E"
  else if striEq o (lit "-a") then lit "-S"
  else o

/-- SAS/C-source branch of `map_compiler_option` (runs for any target),
in source order. -/
def map_sas_option (o : Str) (t : MakefileFormat) : Str :=
  if striEq o (lit "OPTIMIZE") then
    if t = FORMAT_GNU_MAKE then lit "-O2"
    else if t = FORMAT_DICE then lit "-O"
    else if t = FORMAT_LATTICE then lit "-O"
    else o
  else if striEq o (lit "NOSTANDARDIO") then []
  else if strstrB o (lit "INCLUDEDIR=") then
    let n := lit "-I" ++ o.drop 11
    if n.getLast? = some ':' then n.dropLast else n
  else if striEq o (lit "DEBUG=L") then
    if t = FORMAT_GNU_MAKE then lit "-g"
    else if t = FORMAT_DICE then lit "-d1"
    else if t = FORMAT_LATTICE then lit "-d2"
    else o
  else if striEq o (lit "DATA=NEAR") then
    if t = FORMAT_GNU_MAKE then lit "-m68000"
    else if t = FORMAT_DICE then lit "-ms"
    else if t = FORMAT_LATTICE then lit "-ms"
    else o
  else if striEq o (lit "VERBOSE") then
    if t = FORMAT_GNU_MAKE then lit "-v"
    else if t = FORMAT_DICE then lit "-v"
    else if t = FORMAT_LATTICE then lit "-v"
    else o
  else if striEq o (lit "IGN=A") then
    if t = FORMAT_GNU_MAKE then lit "-w"
    else if t = FORMAT_DICE then []
    else if t = FORMAT_LATTICE then lit "-w"
    else o
  else if strstrB o (lit "DEF=") then lit "-D" ++ o.drop 4
  else if striEq o (lit "OBJNAME") then
    if t = FORMAT_GNU_MAKE then lit "-c"
    else if t = FORMAT_DICE then lit "-c"
    else if t = FORMAT_LATTICE then lit "-c"
    else o
  else if striEq o (lit "PPONLY") then
    if t = FORMAT_GNU_MAKE then lit "-E"
    else if t = FORMAT_DICE then lit "-E"
    else if t = FORMAT_LATTICE then lit "-E"
    else o
  else if striEq o (lit "DISASM") then
    if t = FORMAT_GNU_MAKE then lit "-S"
    else if t = FORMAT_DICE then lit "-a"
    else if t = FORMAT_LATTICE then lit "-a"
    else o
  else o

/-- DICE-source branch of `map_compiler_option` (runs for any target),
in source order. -/
def map_dice_option (o : Str) (t : MakefileFormat) : Str :=
  if striEq o (lit "-O") then
    if t = FORMAT_GNU_MAKE then lit "-O2"
    else if t = FORMAT_SAS_C then lit "OPTIMIZE"
    else if t = FORMAT_LATTICE then lit "-O"
    else o
  else if striEq o (lit "-d1") then
    if t = FORMAT_GNU_MAKE then lit "-g"
    else if t = FORMAT_SAS_C then lit "DEBUG=L"
    else if t = FORMAT_LATTICE then lit "-d2"
    else o
  else if striEq o (lit "-ms") then
    if t = FORMAT_GNU_MAKE then lit "-m68000"
    else if t = FORMAT_SAS_C then lit "DATA=NEAR"
    else if t = FORMAT_LATTICE then lit "-ms"
    else o
  else if strstrB o (lit "-D") then o
  else if striEq o (lit "-v") then
    if t = FORMAT_GNU_MAKE then lit "-v"
    else if t = FORMAT_SAS_C then lit "VERBOSE"
    else if t = FORMAT_LATTICE then lit "-v"
    else o
  else if striEq o (lit "-c") then
    if t = FORMAT_GNU_MAKE then lit "-c"
    else if t = FORMAT_SAS_C then lit "OBJNAME"
    else if t = FORMAT_LATTICE then lit "-c"
    else o
  else if striEq o (lit "-E") then
    if t = FORMAT_GNU_MAKE then lit "-E"
    else if t = FORMAT_SAS_C then lit "PPONLY"
    else if t = FORMAT_LATTICE then lit "-E"
    else o
  else if striEq o (lit "-a") then
    if t = FORMAT_GNU_MAKE then lit "-S"
    else if t = FORMAT_SAS_C then lit "DISASM"
    else if t = FORMAT_LATTICE then lit "-a"
    else o
  else if striEq o (lit "-s") then
    if t = FORMAT_GNU_MAKE then lit "-g"
    else if t = FORMAT_SAS_C then lit "DEBUG=FF"
    else if t = FORMAT_LATTICE then lit "-g"
    else o
  else o

/-- GNU-source branch of `map_compiler_option` (runs for any target),
in source order. -/
def map_gnu_option (o : Str) (t : MakefileFormat) : Str :=
  if striEq o (lit "-O2") then
    if t = FORMAT_SAS_C then lit "OPTIMIZE"
    else if t = FORMAT_DICE then lit "-O"
    else if t = FORMAT_LATTICE then lit "-O"
    else o
  else if striEq o (lit "-g") then
    if t = FORMAT_SAS_C then lit "DEBUG=L"
    else if t = FORMAT_DICE then lit "-d1"
    else if t = FORMAT_LATTICE then lit "-d2"
    else o
  else if striEq o (lit "-m68000") then
    if t = FORMAT_SAS_C then lit "DATA=NEAR"
    else if t = FORMAT_DICE then lit "-ms"
    else if t = FORMAT_LATTICE then lit "-ms"
    else o
  else if strstrB o (lit "-D") then o
  else if striEq o (lit "-v") then
    if t = FORMAT_SAS_C then lit "VERBOSE"
    else if t = FORMAT_DICE then lit "-v"
    else if t = FORMAT_LATTICE then lit "-v"
    else o
  else if striEq o (lit "-w") then
    if t = FORMAT_SAS_C then lit "IGN=A"
    else if t = FORMAT_DICE then []
    else if t = FORMAT_LATTICE then lit "-w"
    else o
  else if striEq o (lit "-c") then
    if t = FORMAT_SAS_C then lit "OBJNAME"
    else if t = FORMAT_DICE then lit "-c"
    else if t = FORMAT_LATTICE then lit "-c"
    else o
  else if striEq o (lit "-E") then
    if t = FORMAT_SAS_C then lit "PPONLY"
    else if t = FORMAT_DICE then lit "-E"
    else if t = FORMAT_LATTICE then lit "-E"
    else o
  else if striEq o (lit "-S") then
    if t = FORMAT_SAS_C then lit "DISASM"
    else if t = FORMAT_DICE then lit "-a"
    else if t = FORMAT_LATTICE then lit "-a"
    else o
  else o

/-- The `map_compiler_option` dispatch: the per-source-format blocks run in
source order; when no block applies, the original option is returned. -/
def map_compiler_option (o : Str) (f t : MakefileFormat) : Str :=
  if f = FORMAT_LATTICE ∧ t = FORMAT_SAS_C then map_lattice_to_sas o
  else if f = FORMAT_LATTICE ∧ t = FORMAT_DICE then map_lattice_to_dice o
  else if f = FORMAT_LATTICE ∧ t = FORMAT_GNU_MAKE then map_lattice_to_gnu o
  else if f = FORMAT_SAS_C then map_sas_option o t
  else if f = FORMAT_DICE then map_dice_option o t
  else if f = FORMAT_GNU_MAKE then map_gnu_option o t
  else o

/-- The guard conditions of the Lattice-source mapping chains (all three
target chains test the same set of tokens). -/
def lattice_table_match (o : Str) : Bool :=
  striEq o (lit "-O") || striEq o (lit "-DNONAMES") ||
  strstrB o (lit "-DDEFBLOCKING=") || strstrB o (lit "-I") ||
  striEq o (lit "-v") || striEq o (lit "-d2") || striEq o (lit "-y") ||
  striEq o (lit "-ms") || strstrB o (lit "-D") || striEq o (lit "-w") ||
  striEq o (lit "-g") || striEq o (lit "-c") || striEq o (lit "-E") ||
  striEq o (lit "-a")

/-- The guard conditions of the SAS/C-source mapping chain. -/
def sas_table_match (o : Str) : Bool :=
  striEq o (lit "OPTIMIZE") || striEq o (lit "NOSTANDARDIO") ||
  strstrB o (lit "INCLUDEDIR=") || striEq o (lit "DEBUG=L") ||
  striEq o (lit "DATA=NEAR") || striEq o (lit "VERBOSE") ||
  striEq o (lit "IGN=A") || strstrB o (lit "DEF=") ||
  striEq o (lit "OBJNAME") || striEq o (lit "PPONLY") || striEq o (lit "DISASM")

/-- The guard conditions of the DICE-source mapping chain. -/
def dice_table_match (o : Str) : Bool :=
  striEq o (lit "-O") || striEq o (lit "-d1") || striEq o (lit "-ms") ||
  strstrB o (lit "-D") || striEq o (lit "-v") || striEq o (lit "-c") ||
  striEq o (lit "-E") || striEq o (lit "-a") || striEq o (lit "-s")

/-- The guard conditions of the GNU-source mapping chain. -/
def gnu_table_match (o : Str) : Bool :=
  striEq o (lit "-O2") || striEq o (lit "-g") || striEq o (lit "-m68000") ||
  strstrB o (lit "-D") || striEq o (lit "-v") || striEq o (lit "-w") ||
  striEq o (lit "-c") || striEq o (lit "-E") || striEq o (lit "-S")

/-- Does `o` match some entry of the (source, target) pair's option table,
that is, some guard of the chain that `map_compiler_option` runs for that
pair. -/
def table_match (o : Str) (f t : MakefileFormat) : Bool :=
  if f = FORMAT_LATTICE ∧
      (t = FORMAT_SAS_C ∨ t = FORMAT_DICE ∨ t = FORMAT_GNU_MAKE) then
    lattice_table_match o
  else if f = FORMAT_SAS_C then sas_table_match o
  else if f = FORMAT_DICE then dice_table_match o
  else if f = FORMAT_GNU_MAKE then gnu_table_match o
  else false

/-- Length bound for `List.dropWhile`. -/
theorem dropWhile_length_le {α : Type} (p : α → Bool) (l : List α) :
    (l.dropWhile p).length ≤ l.length := by
  induction l with
  | nil => simp [List.dropWhile]
  | cons a t ih =>
    rw [List.dropWhile_cons]
    split
    · exact Nat.le_succ_of_le ih
    · exact Nat.le_refl _

/-- The head surviving `List.dropWhile` fails the predicate. -/
theorem dropWhile_head_false {α : Type} (p : α → Bool) (l : List α) {a : α}
    {t2 : List α} (h : l.dropWhile p = a :: t2) : p a = false := by
  induction l with
  | nil => simp [List.dropWhile] at h
  | cons b l ih =>
    rw [List.dropWhile_cons] at h
    by_cases hb : p b = true
    · rw [if_pos hb] at h
      exact ih h
    · rw [if_neg hb] at h
      injection h with h1 h2
      subst h1
      exact Bool.not_eq_true _ ▸ Bool.eq_false_iff.mpr hb

/-- Word extraction of the `convert_cflags` loop: split on runs of spaces. -/
def tokenize (s : Str) : List Str :=
  if h : s.dropWhile (fun c => c = ' ') = [] then []
  else
    ((s.dropWhile (fun c => c = ' ')).takeWhile (fun c => c ≠ ' ')) ::
      tokenize ((s.dropWhile (fun c => c = ' ')).dropWhile (fun c => c ≠ ' '))
termination_by s.length
decreasing_by
  have h1 : (s.dropWhile (fun c => decide (c = ' '))).length ≤ s.length :=
    dropWhile_length_le _ s
  obtain ⟨a, t, hat⟩ : ∃ a t, s.dropWhile (fun c => decide (c = ' ')) = a :: t := by
    cases hq : s.dropWhile (fun c => decide (c = ' ')) with
    | nil => exact absurd hq h
    | cons a t => exact ⟨a, t, rfl⟩
  have ha : (decide (a = ' ')) = false := dropWhile_head_false _ s hat
  rw [hat]
  rw [hat] at h1
  rw [List.dropWhile_cons]
  simp only [decide_not, ha, Bool.not_false, if_true, ite_true]
  calc (t.dropWhile fun c => !decide (c = ' ')).length
      ≤ t.length := dropWhile_length_le _ t
    _ < (a :: t).length := by simp
    _ ≤ s.length := h1

/-- Mapping and filtering of the tokens of a flags string: each token is
mapped, and tokens mapping to the empty string are dropped. -/
def convertTokens (f t : MakefileFormat) (ts : List Str) : List Str :=
  (ts.map (fun o => map_compiler_option o f t)).filter (fun o => !o.isEmpty)

/-- The `convert_cflags` function: identity when source equals target,
otherwise the mapped nonempty tokens joined by single spaces. -/
def convert_cflags (flags : Str) (f t : MakefileFormat) : Str :=
  if f = t then flags
  else List.intercalate (lit " ") (convertTokens f t (tokenize flags))

/-- Skip the first space-delimited word (`while (*args && *args != ' ')`). -/
def skip_word (s : Str) : Str := s.dropWhile (fun c => c ≠ ' ')

/-- Skip a run of spaces (`while (*args == ' ')`). -/
def skip_spaces (s : Str) : Str := s.dropWhile (fun c => c = ' ')

/-- Skip leading `-`-flag words and the spaces after each
(`while (*args == '-') { ... }`). -/
def skip_flag_words (s : Str) : Str :=
  if h : s.head? = some '-' then skip_flag_words (skip_spaces (skip_word s))
  else s
termination_by s.length
decreasing_by
  obtain ⟨t, ht⟩ : ∃ t, s = '-' :: t := by
    cases s with
    | nil => simp at h
    | cons a t =>
      simp only [List.head?_cons, Option.some.injEq] at h
      exact ⟨t, by rw [h]⟩
  subst ht
  calc (skip_spaces (skip_word ('-' :: t))).length
      ≤ (skip_word ('-' :: t)).length := dropWhile_length_le _ _
    _ ≤ t.length := by
        simp only [skip_word, List.dropWhile_cons]
        norm_num
        exact dropWhile_length_le _ t
    _ < ('-' :: t).length := by simp

/-- The argument tail used by the `rm`-rewrite in `map_command`: program
name, spaces and `-` flags skipped.  The subsequent wildcard-skipping loop
in the source always copies the whole remaining range, so it has no net
effect on the result. -/
def rm_args (command : Str) : Str :=
  skip_flag_words (skip_spaces (skip_word command))

/-- The `map_command` function: compiler-name, linker and delete rewrites;
every unmatched command passes through unchanged. -/
def map_command (command : Str) (f t : MakefileFormat) : Str :=
  if strstrB command (lit "gcc") ∧ t = FORMAT_SAS_C then
    lit "sc " ++ command.drop 4 ++ lit " OBJNAME=$*.o"
  else if strstrB command (lit "gcc") ∧ t = FORMAT_DICE then
    lit "dcc " ++ command.drop 4
  else if strstrB command (lit "gcc") ∧ t = FORMAT_LATTICE then
    lit "lc " ++ command.drop 4
  else if strstrB command (lit "blink") ∧ t = FORMAT_SAS_C then
    lit "slink " ++ command.drop 6
  else if strstrB command (lit "slink") ∧ t = FORMAT_GNU_MAKE then
    lit "cc -o program"
  else if strstrB command (lit "rm") ∧ t = FORMAT_SAS_C then
    lit "delete " ++ rm_args command ++ lit " QUIET"
  else if strstrB command (lit "rm") ∧ t = FORMAT_DICE then
    lit "delete " ++ rm_args command
  else if strstrB command (lit "rm") ∧ t = FORMAT_LATTICE then
    lit "Delete " ++ rm_args command
  else command

/-- The `format_to_string` function. -/
def format_to_string : MakefileFormat → Str
  | FORMAT_GNU_MAKE => lit "GNU Make"
  | FORMAT_SAS_C => lit "SAS/C"
  | FORMAT_DICE => lit "DICE"
  | FORMAT_LATTICE => lit "Lattice"
  | FORMAT_UNKNOWN => lit "Unknown"

/-- The two-line generated header comment (plus the blank line from the
trailing double newline) written by each emitter. -/
def convert_header (t src : MakefileFormat) : List Str :=
  match t with
  | FORMAT_GNU_MAKE =>
    [lit "# Converted to GNU Make format from " ++ format_to_string src,
     lit "# Generated by GenMaki", []]
  | FORMAT_SAS_C =>
    [lit "; Converted to SAS/C SMakefile format from " ++ format_to_string src,
     lit "; Generated by GenMaki", []]
  | FORMAT_DICE =>
    [lit "# Converted to DICE dmakefile format from " ++ format_to_string src,
     lit "# Generated by GenMaki", []]
  | FORMAT_LATTICE =>
    [lit "; Converted to Lattice lmkfile format from " ++ format_to_string src,
     lit "; Generated by GenMaki", []]
  | FORMAT_UNKNOWN => []

/-- The variable line written by one iteration of the variable loop of
`convert_to_gnu_make`. -/
def gnu_variable_line (v : Variable) : Str :=
  if striEq v.name (lit "CC") then
    if striEq v.value (lit "sc") || striEq v.value (lit "lc") then lit "CC = cc"
    else if striEq v.value (lit "dcc") then lit "CC = cc"
    else lit "CC = " ++ v.value
  else v.name ++ lit " = " ++ v.value

/-- The variable line written by one iteration of the variable loop of
`convert_to_sas_make` (the only emitter that converts `CFLAGS`). -/
def sas_variable_line (src : MakefileFormat) (v : Variable) : Str :=
  if striEq v.name (lit "CC") then
    if striEq v.value (lit "gcc") || striEq v.value (lit "cc") then lit "CC = sc"
    else if striEq v.value (lit "dcc") then lit "CC = sc"
    else if striEq v.value (lit "lc") then lit "CC = sc"
    else lit "CC = " ++ v.value
  else if striEq v.name (lit "CFLAGS") then
    lit "CFLAGS = " ++ convert_cflags v.value src FORMAT_SAS_C
  else v.name ++ lit " = " ++ v.value

/-- The variable line written by one iteration of the variable loop of
`convert_to_dice_make`. -/
def dice_variable_line (v : Variable) : Str :=
  if striEq v.name (lit "CC") then
    if striEq v.value (lit "gcc") || striEq v.value (lit "cc") then lit "CC = dcc"
    else if striEq v.value (lit "sc") then lit "CC = dcc"
    else if striEq v.value (lit "lc") then lit "CC = dcc"
    else lit "CC = " ++ v.value
  else v.name ++ lit " = " ++ v.value

/-- The variable line written by one iteration of the variable loop of
`convert_to_lattice_make`. -/
def lattice_variable_line (v : Variable) : Str :=
  if striEq v.name (lit "CC") then
    if striEq v.value (lit "gcc") || striEq v.value (lit "cc") then lit "CC = lc"
    else if striEq v.value (lit "sc") then lit "CC = lc"
    else if striEq v.value (lit "dcc") then lit "CC = lc"
    else lit "CC = " ++ v.value
  else v.name ++ lit " = " ++ v.value

/-- The header lines of a rule emitted by `convert_to_gnu_make`: the
pattern branch has no arm for a GNU or unknown source, so nothing is
written for it. -/
def gnu_rule_header (src : MakefileFormat) (r : Rule) : List Str :=
  if r.is_pattern_rule then
    if src = FORMAT_SAS_C ∨ src = FORMAT_LATTICE then [lit "%.o: %.c"]
    else if src = FORMAT_DICE then [lit "%.o: %.c"]
    else []
  else [r.targets ++ lit ": " ++ r.dependencies]

/-- The header line of a rule emitted by `convert_to_sas_make`. -/
def sas_rule_header (src : MakefileFormat) (r : Rule) : List Str :=
  if r.is_pattern_rule then
    if src = FORMAT_GNU_MAKE then [lit ".c.o:"]
    else if src = FORMAT_DICE then [lit ".c.o:"]
    else [lit ".c.o:"]
  else [r.targets ++ lit ": " ++ r.dependencies]

/-- The header line of a rule emitted by `convert_to_dice_make`, including
the double-colon form for DICE form-4 rules. -/
def dice_rule_header (src : MakefileFormat) (r : Rule) : List Str :=
  if r.is_pattern_rule then
    if src = FORMAT_GNU_MAKE then [lit "%(left): %(right)"]
    else if src = FORMAT_SAS_C ∨ src = FORMAT_LATTICE then [lit "%(left): %(right)"]
    else [lit "%(left): %(right)"]
  else if r.is_dice_form4 then [r.targets ++ lit " :: " ++ r.dependencies]
  else [r.targets ++ lit ": " ++ r.dependencies]

/-- The header line of a rule emitted by `convert_to_lattice_make`. -/
def lattice_rule_header (src : MakefileFormat) (r : Rule) : List Str :=
  if r.is_pattern_rule then
    if src = FORMAT_GNU_MAKE then [lit ".c.o:"]
    else if src = FORMAT_SAS_C then [lit ".c.o:"]
    else if src = FORMAT_DICE then [lit ".c.o:"]
    else [lit ".c.o:"]
  else [r.targets ++ lit ": " ++ r.dependencies]

/-- The lines written for one rule by `convert_to_gnu_make`: header lines,
one tab-indented mapped command line per command, and a blank line. -/
def gnu_rule_block (src : MakefileFormat) (r : Rule) : List Str :=
  gnu_rule_header src r ++
  r.commands.map (fun c => '\t' :: map_command c.command src FORMAT_GNU_MAKE) ++
  [[]]

/-- The lines written for one rule by `convert_to_sas_make`; a rule with no
commands gets a placeholder comment line instead. -/
def sas_rule_block (src : MakefileFormat) (r : Rule) : List Str :=
  sas_rule_header src r ++
  (if 0 < r.commands.length then
    r.commands.map (fun c => '\t' :: map_command c.command src FORMAT_SAS_C)
  else [lit "\t; No commands specified - may need manual conversion"]) ++
  [[]]

/-- The lines written for one rule by `convert_to_dice_make`. -/
def dice_rule_block (src : MakefileFormat) (r : Rule) : List Str :=
  dice_rule_header src r ++
  r.commands.map (fun c => '\t' :: map_command c.command src FORMAT_DICE) ++
  [[]]

/-- The lines written for one rule by `convert_to_lattice_make`. -/
def lattice_rule_block (src : MakefileFormat) (r : Rule) : List Str :=
  lattice_rule_header src r ++
  r.commands.map (fun c => '\t' :: map_command c.command src FORMAT_LATTICE) ++
  [[]]

/-- The `convert_to_gnu_make` emitter as a list of output lines. -/
def convert_to_gnu_make (source : Makefile) : List Str :=
  convert_header FORMAT_GNU_MAKE source.format ++
  source.vars.map gnu_variable_line ++
  (if 0 < source.vars.length then [([] : Str)] else []) ++
  (source.rules.map (gnu_rule_block source.format)).flatten

/-- The `convert_to_sas_make` emitter as a list of output lines. -/
def convert_to_sas_make (source : Makefile) : List Str :=
  convert_header FORMAT_SAS_C source.format ++
  source.vars.map (sas_variable_line source.format) ++
  (if 0 < source.vars.length then [([] : Str)] else []) ++
  (source.rules.map (sas_rule_block source.format)).flatten

/-- The `convert_to_dice_make` emitter as a list of output lines. -/
def convert_to_dice_make (source : Makefile) : List Str :=
  convert_header FORMAT_DICE source.format ++
  source.vars.map dice_variable_line ++
  (if 0 < source.vars.length then [([] : Str)] else []) ++
  (source.rules.map (dice_rule_block source.format)).flatten

/-- The `convert_to_lattice_make` emitter as a list of output lines. -/
def convert_to_lattice_make (source : Makefile) : List Str :=
  convert_header FORMAT_LATTICE source.format ++
  source.vars.map lattice_variable_line ++
  (if 0 < source.vars.length then [([] : Str)] else []) ++
  (source.rules.map (lattice_rule_block source.format)).flatten

/-- The `convert_makefile` dispatch on the target format; `none` models the
`success = FALSE` default branch. -/
def convert_makefile (source : Makefile) (target : MakefileFormat) :
    Option (List Str) :=
  match target with
  | FORMAT_GNU_MAKE => some (convert_to_gnu_make source)
  | FORMAT_SAS_C => some (convert_to_sas_make source)
  | FORMAT_DICE => some (convert_to_dice_make source)
  | FORMAT_LATTICE => some (convert_to_lattice_make source)
  | FORMAT_UNKNOWN => none

/-- GNU signature fragments tested by `detect_format` on a trimmed line. -/
def has_gnu_signature (t : Str) : Bool :=
  strstrB t (lit "%.o:") || strstrB t (lit "$@") || strstrB t (lit "$<") ||
  strstrB t (lit "$^") || strstrB t (lit "CC=gcc") || strstrB t (lit "CC = gcc")

/-- DICE signature fragments tested by `detect_format` on a trimmed line. -/
def has_dice_signature (t : Str) : Bool :=
  strstrB t (lit "%(left)") || strstrB t (lit "%(right)") || strstrB t (lit "::")

/-- SAS/C signature fragments tested by `detect_format` on a trimmed line. -/
def has_sas_signature (t : Str) : Bool :=
  strstrB t (lit ".c.o:") || strstrB t (lit "$*.o") ||
  strstrB t (lit "OBJNAME=") || strstrB t (lit "slink")

/-- Lattice signature fragments tested by `detect_format` on a trimmed
line. -/
def has_lattice_signature (t : Str) : Bool :=
  strstrB t (lit "blink") || strstrB t (lit "lc ") || strstrB t (lit "WITH")

/-- The lines `detect_format` actually inspects: it reads at most 50 lines
(all lines count toward the limit), trims each, and skips empty lines and
lines starting with `#`. -/
def detect_scan_lines (lines : List Str) : List Str :=
  ((lines.take 50).map trim_whitespace).filter
    (fun t => !(t.isEmpty || t.head? == some '#'))

/-- The GNU detection flag after the scan. -/
def found_gnu (lines : List Str) : Bool :=
  (detect_scan_lines lines).any has_gnu_signature

/-- The DICE detection flag after the scan. -/
def found_dice (lines : List Str) : Bool :=
  (detect_scan_lines lines).any has_dice_signature

/-- The SAS/C detection flag after the scan. -/
def found_sas (lines : List Str) : Bool :=
  (detect_scan_lines lines).any has_sas_signature

/-- The Lattice detection flag after the scan. -/
def found_lattice (lines : List Str) : Bool :=
  (detect_scan_lines lines).any has_lattice_signature

/-- The `detect_format` function: scan flags, then the fixed precedence
DICE, GNU, SAS/C, Lattice. -/
def detect_format (lines : List Str) : MakefileFormat :=
  if found_dice lines then FORMAT_DICE
  else if found_gnu lines then FORMAT_GNU_MAKE
  else if found_sas lines then FORMAT_SAS_C
  else if found_lattice lines then FORMAT_LATTICE
  else FORMAT_UNKNOWN

/-- The `parse_filetype_string` alias table. -/
def parse_filetype_string (ft : Str) : MakefileFormat :=
  if striEq ft (lit "smake") || striEq ft (lit "smakefile") ||
      striEq ft (lit "sasc") then FORMAT_SAS_C
  else if striEq ft (lit "dmake") || striEq ft (lit "dmakefile") ||
      striEq ft (lit "dice") then FORMAT_DICE
  else if striEq ft (lit "makefile") || striEq ft (lit "make") ||
      striEq ft (lit "gnumakefile") || striEq ft (lit "gnu") ||
      striEq ft (lit "gcc") then FORMAT_GNU_MAKE
  else if striEq ft (lit "lmk") || striEq ft (lit "lmkfile") ||
      striEq ft (lit "lattice") then FORMAT_LATTICE
  else FORMAT_UNKNOWN

/-- The default-target policy switch in `main`, used when no FILETYPE
argument is given. -/
def default_target_format : MakefileFormat → Option MakefileFormat
  | FORMAT_GNU_MAKE => some FORMAT_SAS_C
  | FORMAT_LATTICE => some FORMAT_SAS_C
  | FORMAT_DICE => some FORMAT_GNU_MAKE
  | FORMAT_SAS_C => some FORMAT_GNU_MAKE
  | FORMAT_UNKNOWN => none

/-- The conversion pipeline of `main` on the content of the input file:
detection, target determination, parsing, conversion.  The first component
is the console diagnostic stream (verbose tracing and error reports), the
second is the emitted makefile text, or `none` when the run fails. -/
def runGenMaki (lines : List Str) (filetype : Option Str) (verbose : Bool) :
    List Str × Option (List Str) :=
  let d0 := if verbose then [lit "GenMaki: ReadArgs successful"] else []
  let fmt := detect_format lines
  if fmt = FORMAT_UNKNOWN then
    (d0 ++ [lit "GenMaki: Unable to determine makefile format"], none)
  else
    let d1 := d0 ++ (if verbose then
      [lit "GenMaki: Detected source format: " ++ format_to_string fmt] else [])
    let tgt := match filetype with
      | some ft => parse_filetype_string ft
      | none => (default_target_format fmt).getD FORMAT_UNKNOWN
    if tgt = FORMAT_UNKNOWN then
      (d1 ++ [lit "GenMaki: Unknown target format"], none)
    else
      let d2 := d1 ++ (if verbose then
        [lit "GenMaki: Target format: " ++ format_to_string tgt] else [])
      match parse_makefile fmt lines with
      | none => (d2 ++ [lit "GenMaki: Failed to parse makefile"], none)
      | some m =>
        let d3 := d2 ++ (if verbose then
          [lit "GenMaki: Starting conversion..."] else [])
        (d3, convert_makefile m tgt)

/-! Shared helper lemmas. -/

/-- `List.any` is invariant under permutation. -/
theorem perm_any_eq {α : Type} (p : α → Bool) {l1 l2 : List α}
    (h : List.Perm l1 l2) : l1.any p = l2.any p := by
  rw [Bool.eq_iff_iff]
  simp only [List.any_eq_true]
  constructor
  · rintro ⟨x, hx, hp⟩
    exact ⟨x, h.mem_iff.mp hx, hp⟩
  · rintro ⟨x, hx, hp⟩
    exact ⟨x, h.mem_iff.mpr hx, hp⟩

/-- A fold preserves any invariant preserved by each step. -/
theorem foldl_preserve {σ : Type} (f : σ → Str → σ) (P : σ → Prop)
    (hf : ∀ s l, P s → P (f s l)) :
    ∀ (lines : List Str) (s : σ), P s → P (lines.foldl f s) := by
  intro lines
  induction lines with
  | nil => intro s hs; simpa using hs
  | cons a t ih => intro s hs; exact ih _ (hf _ _ hs)

/-- `storeComment` changes only the comment list. -/
theorem storeComment_vars_rules (m : Makefile) (t : Str) :
    (storeComment m t).vars = m.vars ∧ (storeComment m t).rules = m.rules ∧
    (storeComment m t).format = m.format := by
  unfold storeComment
  split <;> exact ⟨rfl, rfl, rfl⟩

/-- `appendVar` changes only the variable list. -/
theorem appendVar_rules (m : Makefile) (v : Variable) :
    (appendVar m v).rules = m.rules ∧ (appendVar m v).format = m.format ∧
    (appendVar m v).comments = m.comments := by
  unfold appendVar
  split <;> exact ⟨rfl, rfl, rfl⟩

/-- `appendCmdLast` changes only the rule list. -/
theorem appendCmdLast_vars (m : Makefile) (c : Str) :
    (appendCmdLast m c).vars = m.vars ∧ (appendCmdLast m c).format = m.format ∧
    (appendCmdLast m c).comments = m.comments := by
  unfold appendCmdLast
  split
  · exact ⟨rfl, rfl, rfl⟩
  · split <;> exact ⟨rfl, rfl, rfl⟩

/-- `appendCmdLast` preserves the number of rules. -/
theorem appendCmdLast_rules_length (m : Makefile) (c : Str) :
    (appendCmdLast m c).rules.length = m.rules.length := by
  unfold appendCmdLast
  split
  · rfl
  · rename_i r hr
    split
    · have hne : m.rules ≠ [] := by
        intro he
        rw [he] at hr
        simp at hr
      have hpos : 0 < m.rules.length := List.length_pos.mpr hne
      simp only [List.length_append, List.length_dropLast, List.length_singleton]
      omega
    · rfl

/-- The capacity invariant of a model: at most `MAX_VARIABLES` variables,
`MAX_RULES` rules, and `MAX_COMMANDS` commands per rule. -/
def BoundsOk (m : Makefile) : Prop :=
  m.vars.length ≤ MAX_VARIABLES ∧ m.rules.length ≤ MAX_RULES ∧
  ∀ r ∈ m.rules, r.commands.length ≤ MAX_COMMANDS

/-- `appendVar` preserves the capacity invariant. -/
theorem appendVar_bounds (m : Makefile) (v : Variable) (h : BoundsOk m) :
    BoundsOk (appendVar m v) := by
  obtain ⟨h1, h2, h3⟩ := h
  unfold appendVar BoundsOk
  split
  · rename_i hlt
    refine ⟨?_, h2, h3⟩
    simp only [List.length_append, List.length_singleton]
    exact Nat.succ_le_of_lt hlt
  · exact ⟨h1, h2, h3⟩

/-- `storeComment` preserves the capacity invariant. -/
theorem storeComment_bounds (m : Makefile) (t : Str) (h : BoundsOk m) :
    BoundsOk (storeComment m t) := by
  obtain ⟨hv, hr, _⟩ := storeComment_vars_rules m t
  unfold BoundsOk at h ⊢
  rw [hv, hr]
  exact h

/-- `appendCmdLast` preserves the capacity invariant. -/
theorem appendCmdLast_bounds (m : Makefile) (c : Str) (h : BoundsOk m) :
    BoundsOk (appendCmdLast m c) := by
  obtain ⟨h1, h2, h3⟩ := h
  refine ⟨?_, ?_, ?_⟩
  · rw [(appendCmdLast_vars m c).1]
    exact h1
  · rw [appendCmdLast_rules_length]
    exact h2
  · intro r hr
    unfold appendCmdLast at hr
    split at hr
    · exact h3 r hr
    · rename_i r0 hr0
      split at hr
      · rename_i hlt
        simp only [List.mem_append, List.mem_singleton] at hr
        rcases hr with hr | hr
        · exact h3 r (List.dropLast_subset _ hr)
        · subst hr
          simp only [List.length_append, List.length_singleton]
          exact Nat.succ_le_of_lt hlt
      · exact h3 r hr

/-- A freshly appended rule with empty commands preserves the invariant as
long as the capacity guard held. -/
theorem appendRule_bounds (m : Makefile) (tg dp : Str) (p4 q4 : Bool)
    (hlt : m.rules.length < MAX_RULES) (h : BoundsOk m) :
    BoundsOk { m with rules := m.rules ++ [⟨tg, dp, [], p4, q4⟩] } := by
  obtain ⟨h1, h2, h3⟩ := h
  refine ⟨h1, ?_, ?_⟩
  · simp only [List.length_append, List.length_singleton]
    exact Nat.succ_le_of_lt hlt
  · intro r hr
    simp only [List.mem_append, List.mem_singleton] at hr
    rcases hr with hr | hr
    · exact h3 r hr
    · subst hr
      simp [MAX_COMMANDS]

/-- One GNU parser step preserves the capacity invariant. -/
theorem parse_gnu_line_bounds (st : ParseState) (l : Str)
    (h : BoundsOk st.makefile) : BoundsOk (parse_gnu_line st l).makefile := by
  simp only [parse_gnu_line]
  split
  · exact h
  · split
    · exact storeComment_bounds _ _ h
    · split
      · exact appendVar_bounds _ _ h
      · split
        · split
          · rename_i hlt
            exact appendRule_bounds _ _ _ _ _ hlt h
          · exact h
        · split
          · split
            · exact h
            · exact appendCmdLast_bounds _ _ h
          · exact h

/-- One SAS/C parser step preserves the capacity invariant. -/
theorem parse_sas_line_bounds (st : ParseState) (l : Str)
    (h : BoundsOk st.makefile) : BoundsOk (parse_sas_line st l).makefile := by
  simp only [parse_sas_line]
  split
  · exact h
  · split
    · exact storeComment_bounds _ _ h
    · split
      · exact appendVar_bounds _ _ h
      · split
        · split
          · rename_i hlt
            exact appendRule_bounds _ _ _ _ _ hlt h
          · exact h
        · split
          · split
            · rename_i hlt
              exact appendRule_bounds _ _ _ _ _ hlt h
            · exact h
          · split
            · split
              · exact h
              · exact appendCmdLast_bounds _ _ h
            · exact h

/-- One DICE parser step preserves the capacity invariant. -/
theorem parse_dice_line_bounds (st : ParseState) (l : Str)
    (h : BoundsOk st.makefile) : BoundsOk (parse_dice_line st l).makefile := by
  simp only [parse_dice_line]
  split
  · exact h
  · split
    · exact storeComment_bounds _ _ h
    · split
      · exact appendVar_bounds _ _ h
      · split
        · split
          · rename_i hlt
            exact appendRule_bounds _ _ _ _ _ hlt h
          · exact h
        · split
          · split
            · rename_i hlt
              exact appendRule_bounds _ _ _ _ _ hlt h
            · exact h
          · split
            · split
              · exact h
              · exact appendCmdLast_bounds _ _ h
            · exact h

/-- Processing one completed Lattice logical line preserves the capacity
invariant. -/
theorem processLat_bounds (st : LatState) (h : BoundsOk st.makefile) :
    BoundsOk (processLat st).makefile := by
  simp only [processLat]
  split
  · split
    · exact h
    · exact h
  · split
    · exact storeComment_bounds _ _ h
    · split
      · exact h
      · split
        · exact appendVar_bounds _ _ h
        · split
          · split
            · rename_i hlt
              exact appendRule_bounds _ _ _ _ _ hlt h
            · exact h
          · split
            · split
              · rename_i hlt
                exact appendRule_bounds _ _ _ _ _ hlt h
              · exact h
            · split
              · split
                · exact h
                · exact appendCmdLast_bounds _ _ h
              · split
                · split
                  · exact appendCmdLast_bounds _ _ h
                  · exact h
                · exact h

/-- One physical-line Lattice parser step preserves the capacity
invariant. -/
theorem parse_lattice_line_bounds (st : LatState) (l : Str)
    (h : BoundsOk st.makefile) : BoundsOk (parse_lattice_line st l).makefile := by
  simp only [parse_lattice_line]
  split
  · exact h
  · split
    · exact processLat_bounds _ h
    · split
      · exact processLat_bounds _ h
      · exact processLat_bounds _ h

/-- At variable capacity, a GNU parser step never changes the variables. -/
theorem parse_gnu_line_vars_cap (st : ParseState) (l : Str)
    (hc : st.makefile.vars.length = MAX_VARIABLES) :
    (parse_gnu_line st l).makefile.vars = st.makefile.vars := by
  simp only [parse_gnu_line]
  split
  · rfl
  · split
    · exact (storeComment_vars_rules _ _).1
    · split
      · show (appendVar st.makefile _).vars = st.makefile.vars
        unfold appendVar
        rw [if_neg (by omega)]
      · split
        · split
          · rfl
          · rfl
        · split
          · split
            · rfl
            · exact (appendCmdLast_vars _ _).1
          · rfl

/-- At variable capacity, a SAS/C parser step never changes the variables. -/
theorem parse_sas_line_vars_cap (st : ParseState) (l : Str)
    (hc : st.makefile.vars.length = MAX_VARIABLES) :
    (parse_sas_line st l).makefile.vars = st.makefile.vars := by
  simp only [parse_sas_line]
  split
  · rfl
  · split
    · exact (storeComment_vars_rules _ _).1
    · split
      · show (appendVar st.makefile _).vars = st.makefile.vars
        unfold appendVar
        rw [if_neg (by omega)]
      · split
        · split
          · rfl
          · rfl
        · split
          · split
            · rfl
            · rfl
          · split
            · split
              · rfl
              · exact (appendCmdLast_vars _ _).1
            · rfl

/-- At variable capacity, a DICE parser step never changes the variables. -/
theorem parse_dice_line_vars_cap (st : ParseState) (l : Str)
    (hc : st.makefile.vars.length = MAX_VARIABLES) :
    (parse_dice_line st l).makefile.vars = st.makefile.vars := by
  simp only [parse_dice_line]
  split
  · rfl
  · split
    · exact (storeComment_vars_rules _ _).1
    · split
      · show (appendVar st.makefile _).vars = st.makefile.vars
        unfold appendVar
        rw [if_neg (by omega)]
      · split
        · split
          · rfl
          · rfl
        · split
          · split
            · rfl
            · rfl
          · split
            · split
              · rfl
              · exact (appendCmdLast_vars _ _).1
            · rfl

/-- At variable capacity, processing a Lattice logical line never changes
the variables. -/
theorem processLat_vars_cap (st : LatState)
    (hc : st.makefile.vars.length = MAX_VARIABLES) :
    (processLat st).makefile.vars = st.makefile.vars := by
  simp only [processLat]
  split
  · split
    · rfl
    · rfl
  · split
    · exact (storeComment_vars_rules _ _).1
    · split
      · rfl
      · split
        · show (appendVar st.makefile _).vars = st.makefile.vars
          unfold appendVar
          rw [if_neg (by omega)]
        · split
          · split
            · rfl
            · rfl
          · split
            · split
              · rfl
              · rfl
            · split
              · split
                · rfl
                · exact (appendCmdLast_vars _ _).1
              · split
                · split
                  · exact (appendCmdLast_vars _ _).1
                  · rfl
                · rfl

/-- At rule capacity, a GNU parser step never changes the rule count. -/
theorem parse_gnu_line_rules_cap (st : ParseState) (l : Str)
    (hc : st.makefile.rules.length = MAX_RULES) :
    (parse_gnu_line st l).makefile.rules.length = MAX_RULES := by
  simp only [parse_gnu_line]
  split
  · exact hc
  · split
    · rw [(storeComment_vars_rules _ _).2.1]; exact hc
    · split
      · show (appendVar st.makefile _).rules.length = MAX_RULES
        rw [(appendVar_rules _ _).1]; exact hc
      · split
        · split
          · rename_i hlt
            exact absurd hlt (by omega)
          · exact hc
        · split
          · split
            · exact hc
            · rw [appendCmdLast_rules_length]; exact hc
          · exact hc

/-- At rule capacity, a SAS/C parser step never changes the rule count. -/
theorem parse_sas_line_rules_cap (st : ParseState) (l : Str)
    (hc : st.makefile.rules.length = MAX_RULES) :
    (parse_sas_line st l).makefile.rules.length = MAX_RULES := by
  simp only [parse_sas_line]
  split
  · exact hc
  · split
    · rw [(storeComment_vars_rules _ _).2.1]; exact hc
    · split
      · show (appendVar st.makefile _).rules.length = MAX_RULES
        rw [(appendVar_rules _ _).1]; exact hc
      · split
        · split
          · rename_i hlt
            exact absurd hlt (by omega)
          · exact hc
        · split
          · split
            · rename_i hlt
              exact absurd hlt (by omega)
            · exact hc
          · split
            · split
              · exact hc
              · rw [appendCmdLast_rules_length]; exact hc
            · exact hc

/-- At rule capacity, a DICE parser step never changes the rule count. -/
theorem parse_dice_line_rules_cap (st : ParseState) (l : Str)
    (hc : st.makefile.rules.length = MAX_RULES) :
    (parse_dice_line st l).makefile.rules.length = MAX_RULES := by
  simp only [parse_dice_line]
  split
  · exact hc
  · split
    · rw [(storeComment_vars_rules _ _).2.1]; exact hc
    · split
      · show (appendVar st.makefile _).rules.length = MAX_RULES
        rw [(appendVar_rules _ _).1]; exact hc
      · split
        · split
          · rename_i hlt
            exact absurd hlt (by omega)
          · exact hc
        · split
          · split
            · rename_i hlt
              exact absurd hlt (by omega)
            · exact hc
          · split
            · split
              · exact hc
              · rw [appendCmdLast_rules_length]; exact hc
            · exact hc

/-- At rule capacity, processing a Lattice logical line never changes the
rule count. -/
theorem processLat_rules_cap (st : LatState)
    (hc : st.makefile.rules.length = MAX_RULES) :
    (processLat st).makefile.rules.length = MAX_RULES := by
  simp only [processLat]
  split
  · split
    · exact hc
    · exact hc
  · split
    · rw [(storeComment_vars_rules _ _).2.1]; exact hc
    · split
      · exact hc
      · split
        · show (appendVar st.makefile _).rules.length = MAX_RULES
          rw [(appendVar_rules _ _).1]; exact hc
        · split
          · split
            · rename_i hlt
              exact absurd hlt (by omega)
            · exact hc
          · split
            · split
              · rename_i hlt
                exact absurd hlt (by omega)
              · exact hc
            · split
              · split
                · exact hc
                · rw [appendCmdLast_rules_length]; exact hc
              · split
                · split
                  · rw [appendCmdLast_rules_length]; exact hc
                  · exact hc
                · exact hc

/-- Claim C10: every dialect parser maintains the invariant that the
model's variable count never exceeds 64 (`MAX_VARIABLES`), its rule count
never exceeds 128 (`MAX_RULES`), and each rule's command count never
exceeds 256 (`MAX_COMMANDS`); once a capacity is reached, further
variables or rules are silently dropped (the model no longer changes in
that component) and parsing continues without error (every parser returns
a model for every input). -/
theorem c10_capacity :
    (∀ (fmt : MakefileFormat) (lines : List Str) (m : Makefile),
        parse_makefile fmt lines = some m →
        m.vars.length ≤ MAX_VARIABLES ∧ m.rules.length ≤ MAX_RULES ∧
        ∀ r ∈ m.rules, r.commands.length ≤ MAX_COMMANDS) ∧
    (∀ (fmt : MakefileFormat) (lines : List Str), fmt ≠ FORMAT_UNKNOWN →
        ∃ m, parse_makefile fmt lines = some m) ∧
    (∀ (st : ParseState) (l : Str),
        st.makefile.vars.length = MAX_VARIABLES →
        (parse_gnu_line st l).makefile.vars = st.makefile.vars ∧
        (parse_sas_line st l).makefile.vars = st.makefile.vars ∧
        (parse_dice_line st l).makefile.vars = st.makefile.vars) ∧
    (∀ st : LatState, st.makefile.vars.length = MAX_VARIABLES →
        (processLat st).makefile.vars = st.makefile.vars) ∧
    (∀ (st : ParseState) (l : Str),
        st.makefile.rules.length = MAX_RULES →
        (parse_gnu_line st l).makefile.rules.length = MAX_RULES ∧
        (parse_sas_line st l).makefile.rules.length = MAX_RULES ∧
        (parse_dice_line st l).makefile.rules.length = MAX_RULES) ∧
    (∀ st : LatState, st.makefile.rules.length = MAX_RULES →
        (processLat st).makefile.rules.length = MAX_RULES) := by
  refine ⟨?_, ?_, ?_, ?_, ?_, ?_⟩
  · intro fmt lines m hp
    have hinit : ∀ f0, BoundsOk (emptyMakefile f0) := by
      intro f0
      exact ⟨Nat.zero_le _, Nat.zero_le _, by simp [emptyMakefile]⟩
    cases fmt with
    | FORMAT_UNKNOWN => cases hp
    | FORMAT_GNU_MAKE =>
      obtain rfl := Option.some.inj hp
      exact foldl_preserve parse_gnu_line (fun st => BoundsOk st.makefile)
        (fun s l hs => parse_gnu_line_bounds s l hs) lines _ (hinit _)
    | FORMAT_SAS_C =>
      obtain rfl := Option.some.inj hp
      exact foldl_preserve parse_sas_line (fun st => BoundsOk st.makefile)
        (fun s l hs => parse_sas_line_bounds s l hs) lines _ (hinit _)
    | FORMAT_DICE =>
      obtain rfl := Option.some.inj hp
      exact foldl_preserve parse_dice_line (fun st => BoundsOk st.makefile)
        (fun s l hs => parse_dice_line_bounds s l hs) lines _ (hinit _)
    | FORMAT_LATTICE =>
      obtain rfl := Option.some.inj hp
      exact foldl_preserve parse_lattice_line (fun st => BoundsOk st.makefile)
        (fun s l hs => parse_lattice_line_bounds s l hs) lines _ (hinit _)
  · intro fmt lines hne
    cases fmt with
    | FORMAT_UNKNOWN => exact absurd rfl hne
    | FORMAT_GNU_MAKE => exact ⟨_, rfl⟩
    | FORMAT_SAS_C => exact ⟨_, rfl⟩
    | FORMAT_DICE => exact ⟨_, rfl⟩
    | FORMAT_LATTICE => exact ⟨_, rfl⟩
  · intro st l hc
    exact ⟨parse_gnu_line_vars_cap st l hc, parse_sas_line_vars_cap st l hc,
      parse_dice_line_vars_cap st l hc⟩
  · intro st hc
    exact processLat_vars_cap st hc
  · intro st l hc
    exact ⟨parse_gnu_line_rules_cap st l hc, parse_sas_line_rules_cap st l hc,
      parse_dice_line_rules_cap st l hc⟩
  · intro st hc
    exact processLat_rules_cap st hc

/-- A parser state whose model is at the variable capacity, for the C10
witness. -/
def varCapState : ParseState :=
  ⟨⟨FORMAT_GNU_MAKE, List.replicate 64 ⟨[], [], false⟩, [], []⟩, false⟩

/-- Witness for C10: the bounds hold on a concrete parse, a non-unknown
format parses without error, and a variable line at capacity is dropped. -/
theorem c10_capacity_witness :
    ((parse_gnu_makefile [lit "A=1"]).vars.length ≤ MAX_VARIABLES ∧
     (parse_gnu_makefile [lit "A=1"]).rules.length ≤ MAX_RULES ∧
     ∀ r ∈ (parse_gnu_makefile [lit "A=1"]).rules,
       r.commands.length ≤ MAX_COMMANDS) ∧
    (∃ m, parse_makefile FORMAT_SAS_C [] = some m) ∧
    (parse_gnu_line varCapState (lit "B=2")).makefile.vars =
      varCapState.makefile.vars :=
  ⟨c10_capacity.1 FORMAT_GNU_MAKE [lit "A=1"] _ rfl,
   c10_capacity.2.1 FORMAT_SAS_C [] (by decide),
   (c10_capacity.2.2.1 varCapState (lit "B=2") (by decide)).1⟩

/-- Claim C6: when no target format is given, the default target is a
fixed policy of the detected source dialect: GNU-Make and Lattice sources
default to SAS/C, DICE and SAS/C sources default to GNU Make. -/
theorem c6_default_target_policy :
    default_target_format FORMAT_GNU_MAKE = some FORMAT_SAS_C ∧
    default_target_format FORMAT_LATTICE = some FORMAT_SAS_C ∧
    default_target_format FORMAT_DICE = some FORMAT_GNU_MAKE ∧
    default_target_format FORMAT_SAS_C = some FORMAT_GNU_MAKE :=
  ⟨rfl, rfl, rfl, rfl⟩

/-- Claim C9: two runs of the conversion pipeline that differ only in the
verbosity toggle produce identical conversion output; the toggle changes
only the diagnostic stream. -/
theorem c9_verbose_independent (lines : List Str) (filetype : Option Str)
    (v1 v2 : Bool) :
    (runGenMaki lines filetype v1).2 = (runGenMaki lines filetype v2).2 := by
  simp only [runGenMaki]
  split
  · rfl
  · split
    · rfl
    · split
      · rfl
      · rfl

/-- Counterexample to claim C7 as stated: the comment `# hello` is stored
in the model, but no emitter reproduces stored comments — the converted
output contains no line mentioning it. -/
theorem c7_counterexample :
    (parse_gnu_makefile [lit "# hello", lit "x=1"]).comments =
      [some (lit "# hello")] ∧
    convert_makefile (parse_gnu_makefile [lit "# hello", lit "x=1"])
        FORMAT_SAS_C =
      some [lit "; Converted to SAS/C SMakefile format from GNU Make",
            lit "; Generated by GenMaki", [], lit "x = 1", []] ∧
    ∀ l ∈ [lit "; Converted to SAS/C SMakefile format from GNU Make",
           lit "; Generated by GenMaki", ([] : Str), lit "x = 1", ([] : Str)],
      strstrB l (lit "hello") = false := by
  exact ⟨by decide, by decide, by decide⟩

/-- Counterexample to claim C2 as stated: a GNU pattern rule converted to
GNU Make emits no rule-header line at all (the emitter's pattern branch
has no arm for a GNU source), so the output has one parsed rule but zero
rule-header lines (no emitted line even contains a colon). -/
theorem c2_counterexample :
    (parse_gnu_makefile [lit "%.o: %.c"]).rules.length = 1 ∧
    convert_makefile (parse_gnu_makefile [lit "%.o: %.c"]) FORMAT_GNU_MAKE =
      some [lit "# Converted to GNU Make format from GNU Make",
            lit "# Generated by GenMaki", [], []] ∧
    ∀ l ∈ [lit "# Converted to GNU Make format from GNU Make",
           lit "# Generated by GenMaki", ([] : Str), ([] : Str)],
      strchrB l ':' = false := by
  exact ⟨by decide, by decide, by decide⟩

/-- Counterexample to claim C5 as stated: converting a GNU model to GNU
Make (source equals target) rewrites the variable value `sc` of `CC` to
`cc`, although `sc` matches no entry of the GNU-to-GNU option-mapping
table. -/
theorem c5_counterexample :
    (parse_gnu_makefile [lit "CC=sc"]).vars = [⟨lit "CC", lit "sc", false⟩] ∧
    convert_makefile (parse_gnu_makefile [lit "CC=sc"]) FORMAT_GNU_MAKE =
      some [lit "# Converted to GNU Make format from GNU Make",
            lit "# Generated by GenMaki", [], lit "CC = cc", []] ∧
    table_match (lit "sc") FORMAT_GNU_MAKE FORMAT_GNU_MAKE = false := by
  exact ⟨by decide, by decide, by decide⟩

/-- A 52-line file: a GNU fragment first, a SAS/C fragment second, filler,
and a DICE fragment on the last line (outside the 50-line scan window). -/
def c1_lines_a : List Str :=
  lit "$@" :: ((lit ".c.o:" :: List.replicate 49 (lit "x")) ++ [lit "::"])

/-- The same 52 lines with the GNU and DICE fragments exchanged. -/
def c1_lines_b : List Str :=
  lit "::" :: ((lit ".c.o:" :: List.replicate 49 (lit "x")) ++ [lit "$@"])

/-- Counterexample to claim C1 as stated: the two files are permutations
of each other and both set two dialect flags during the scan, yet the
detected formats differ, because only the first 50 lines are scanned — the
result is not independent of the order of the fragments. -/
theorem c1_counterexample :
    List.Perm c1_lines_a c1_lines_b ∧
    found_gnu c1_lines_a = true ∧ found_sas c1_lines_a = true ∧
    found_dice c1_lines_b = true ∧ found_sas c1_lines_b = true ∧
    detect_format c1_lines_a = FORMAT_GNU_MAKE ∧
    detect_format c1_lines_b = FORMAT_DICE := by
  refine ⟨?_, by decide, by decide, by decide, by decide, by decide, by decide⟩
  have h1 : List.Perm ((lit ".c.o:" :: List.replicate 49 (lit "x")) ++ [lit "::"])
      (lit "::" :: (lit ".c.o:" :: List.replicate 49 (lit "x"))) :=
    List.perm_append_singleton _ _
  have h2 : List.Perm (lit "$@" :: (lit ".c.o:" :: List.replicate 49 (lit "x")))
      ((lit ".c.o:" :: List.replicate 49 (lit "x")) ++ [lit "$@"]) :=
    (List.perm_append_singleton _ _).symm
  exact ((h1.cons _).trans (List.Perm.swap _ _ _)).trans (h2.cons _)

/-- Claim C1 (amended): the returned dialect always follows the fixed
precedence order on the scan flags — DICE wins first, then GNU, then
SAS/C, then Lattice — and for files that fit entirely inside the 50-line
scan window the result is independent of the order of the lines (for
longer files a fragment can fall outside the window, as the counterexample
shows). -/
theorem c1_detect_precedence :
    (∀ lines, found_dice lines = true →
        detect_format lines = FORMAT_DICE) ∧
    (∀ lines, found_dice lines = false → found_gnu lines = true →
        detect_format lines = FORMAT_GNU_MAKE) ∧
    (∀ lines, found_dice lines = false → found_gnu lines = false →
        found_sas lines = true → detect_format lines = FORMAT_SAS_C) ∧
    (∀ lines, found_dice lines = false → found_gnu lines = false →
        found_sas lines = false → found_lattice lines = true →
        detect_format lines = FORMAT_LATTICE) ∧
    (∀ l1 l2 : List Str, List.Perm l1 l2 → l1.length ≤ 50 →
        detect_format l1 = detect_format l2) := by
  refine ⟨?_, ?_, ?_, ?_, ?_⟩
  · intro lines h
    simp [detect_format, h]
  · intro lines h1 h2
    simp [detect_format, h1, h2]
  · intro lines h1 h2 h3
    simp [detect_format, h1, h2, h3]
  · intro lines h1 h2 h3 h4
    simp [detect_format, h1, h2, h3, h4]
  · intro l1 l2 hp hlen
    have hlen2 : l2.length ≤ 50 := hp.length_eq ▸ hlen
    have hscan : List.Perm (detect_scan_lines l1) (detect_scan_lines l2) := by
      unfold detect_scan_lines
      rw [List.take_of_length_le hlen, List.take_of_length_le hlen2]
      exact (hp.map _).filter _
    unfold detect_format found_dice found_gnu found_sas
      found_lattice
    rw [perm_any_eq _ hscan, perm_any_eq _ hscan, perm_any_eq _ hscan,
      perm_any_eq _ hscan]

/-- Witness for C1: the double-colon fragment wins on a concrete ambiguous
file, and a two-line file detects the same dialect after swapping its
lines. -/
theorem c1_detect_precedence_witness :
    (found_dice [lit "a :: b", lit "$@"] = true ∧
     detect_format [lit "a :: b", lit "$@"] = FORMAT_DICE) ∧
    (List.Perm [lit "$@", lit "a :: b"] [lit "a :: b", lit "$@"] ∧
     [lit "$@", lit "a :: b"].length ≤ 50 ∧
     detect_format [lit "$@", lit "a :: b"] =
       detect_format [lit "a :: b", lit "$@"]) :=
  ⟨⟨by decide, c1_detect_precedence.1 [lit "a :: b", lit "$@"] (by decide)⟩,
   ⟨List.Perm.swap _ _ _, by decide,
    c1_detect_precedence.2.2.2.2 _ _ (List.Perm.swap _ _ _) (by decide)⟩⟩

/-- The variable line emitted for one variable, by target format. -/
def convert_variable_line (t src : MakefileFormat) (v : Variable) : Str :=
  match t with
  | FORMAT_GNU_MAKE => gnu_variable_line v
  | FORMAT_SAS_C => sas_variable_line src v
  | FORMAT_DICE => dice_variable_line v
  | FORMAT_LATTICE => lattice_variable_line v
  | FORMAT_UNKNOWN => []

/-- The rule-header lines emitted for one rule, by target format. -/
def convert_rule_header (t src : MakefileFormat) (r : Rule) : List Str :=
  match t with
  | FORMAT_GNU_MAKE => gnu_rule_header src r
  | FORMAT_SAS_C => sas_rule_header src r
  | FORMAT_DICE => dice_rule_header src r
  | FORMAT_LATTICE => lattice_rule_header src r
  | FORMAT_UNKNOWN => []

/-- The command lines emitted for one rule, by target format. -/
def convert_rule_commands (t src : MakefileFormat) (r : Rule) : List Str :=
  match t with
  | FORMAT_GNU_MAKE =>
    r.commands.map (fun c => '\t' :: map_command c.command src FORMAT_GNU_MAKE)
  | FORMAT_SAS_C =>
    if 0 < r.commands.length then
      r.commands.map (fun c => '\t' :: map_command c.command src FORMAT_SAS_C)
    else [lit "\t; No commands specified - may need manual conversion"]
  | FORMAT_DICE =>
    r.commands.map (fun c => '\t' :: map_command c.command src FORMAT_DICE)
  | FORMAT_LATTICE =>
    r.commands.map (fun c => '\t' :: map_command c.command src FORMAT_LATTICE)
  | FORMAT_UNKNOWN => []

/-- The full block emitted for one rule, by target format. -/
def convert_rule_block (t src : MakefileFormat) (r : Rule) : List Str :=
  match t with
  | FORMAT_GNU_MAKE => gnu_rule_block src r
  | FORMAT_SAS_C => sas_rule_block src r
  | FORMAT_DICE => dice_rule_block src r
  | FORMAT_LATTICE => lattice_rule_block src r
  | FORMAT_UNKNOWN => []

/-- Claim C2 (amended): for every model and non-unknown target, the
emitted output is the header followed by exactly one variable-assignment
line per Variable, a separator, and one block per Rule consisting of its
rule-header lines, its command lines and a blank line; each rule
contributes exactly one rule-header line, except that the GNU emitter
contributes none for a pattern rule whose source format is neither SAS/C,
Lattice nor DICE (in particular a GNU source, as the counterexample
shows). -/
theorem c2_structure_preservation (m : Makefile) (tgt : MakefileFormat)
    (h : tgt ≠ FORMAT_UNKNOWN) :
    ∃ out, convert_makefile m tgt = some out ∧
      out = convert_header tgt m.format ++
            m.vars.map (convert_variable_line tgt m.format) ++
            (if 0 < m.vars.length then [([] : Str)] else []) ++
            (m.rules.map (convert_rule_block tgt m.format)).flatten ∧
      (m.vars.map (convert_variable_line tgt m.format)).length =
        m.vars.length ∧
      (∀ r ∈ m.rules, convert_rule_block tgt m.format r =
          convert_rule_header tgt m.format r ++
          convert_rule_commands tgt m.format r ++ [([] : Str)]) ∧
      (∀ r ∈ m.rules, (convert_rule_header tgt m.format r).length =
          if tgt = FORMAT_GNU_MAKE ∧ r.is_pattern_rule = true ∧
             m.format ≠ FORMAT_SAS_C ∧ m.format ≠ FORMAT_LATTICE ∧
             m.format ≠ FORMAT_DICE
          then 0 else 1) := by
  cases tgt with
  | FORMAT_UNKNOWN => exact absurd rfl h
  | FORMAT_GNU_MAKE =>
    refine ⟨_, rfl, rfl, List.length_map _ _, fun r _ => rfl, fun r _ => ?_⟩
    by_cases hp : r.is_pattern_rule = true
    · cases hsrc : m.format <;>
        simp [convert_rule_header, gnu_rule_header, hp, hsrc]
    · simp [convert_rule_header, gnu_rule_header, hp]
  | FORMAT_SAS_C =>
    refine ⟨_, rfl, rfl, List.length_map _ _, fun r _ => rfl, fun r _ => ?_⟩
    by_cases hp : r.is_pattern_rule = true <;>
      cases hsrc : m.format <;>
        simp [convert_rule_header, sas_rule_header, hp, hsrc]
  | FORMAT_DICE =>
    refine ⟨_, rfl, rfl, List.length_map _ _, fun r _ => rfl, fun r _ => ?_⟩
    by_cases hp : r.is_pattern_rule = true <;>
      by_cases hf : r.is_dice_form4 = true <;>
        cases hsrc : m.format <;>
          simp [convert_rule_header, dice_rule_header, hp, hf, hsrc]
  | FORMAT_LATTICE =>
    refine ⟨_, rfl, rfl, List.length_map _ _, fun r _ => rfl, fun r _ => ?_⟩
    by_cases hp : r.is_pattern_rule = true <;>
      cases hsrc : m.format <;>
        simp [convert_rule_header, lattice_rule_header, hp, hsrc]

/-- A one-variable, one-rule GNU model for the C2 witness. -/
def c2_model : Makefile :=
  ⟨FORMAT_GNU_MAKE, [⟨lit "X", lit "1", false⟩],
   [⟨lit "all", lit "x", [], false, false⟩], []⟩

/-- Witness for C2: the decomposition and counts at a concrete model and
target. -/
theorem c2_structure_preservation_witness :
    FORMAT_SAS_C ≠ FORMAT_UNKNOWN ∧
    (∃ out, convert_makefile c2_model FORMAT_SAS_C = some out ∧
      out = convert_header FORMAT_SAS_C c2_model.format ++
            c2_model.vars.map (convert_variable_line FORMAT_SAS_C c2_model.format) ++
            (if 0 < c2_model.vars.length then [([] : Str)] else []) ++
            (c2_model.rules.map (convert_rule_block FORMAT_SAS_C c2_model.format)).flatten ∧
      (c2_model.vars.map (convert_variable_line FORMAT_SAS_C c2_model.format)).length =
        c2_model.vars.length ∧
      (∀ r ∈ c2_model.rules, convert_rule_block FORMAT_SAS_C c2_model.format r =
          convert_rule_header FORMAT_SAS_C c2_model.format r ++
          convert_rule_commands FORMAT_SAS_C c2_model.format r ++ [([] : Str)]) ∧
      (∀ r ∈ c2_model.rules,
          (convert_rule_header FORMAT_SAS_C c2_model.format r).length =
          if FORMAT_SAS_C = FORMAT_GNU_MAKE ∧ r.is_pattern_rule = true ∧
             c2_model.format ≠ FORMAT_SAS_C ∧ c2_model.format ≠ FORMAT_LATTICE ∧
             c2_model.format ≠ FORMAT_DICE
          then 0 else 1)) :=
  ⟨by decide, c2_structure_preservation c2_model FORMAT_SAS_C (by decide)⟩

/-- Claim C5 (amended): when source equals target, the option-mapping
pass (`convert_cflags`) is the identity, every variable whose name is not
`CC` (and, for the SAS/C emitter, not `CFLAGS`) is emitted as
`name = value` with both parts unchanged, a `CFLAGS` variable keeps its
value (under the case-normalised name), and every non-pattern (and, for
DICE, non-form-4) rule header is emitted as `targets: dependencies`
unchanged; a variable named `CC` whose value names another dialect's
compiler is rewritten to the target's own compiler, as the counterexample
shows, and pattern-rule headers are re-rendered in the target's native
form. -/
theorem c5_self_conversion :
    (∀ (flags : Str) (f : MakefileFormat), convert_cflags flags f f = flags) ∧
    (∀ v : Variable, striEq v.name (lit "CC") = false →
        gnu_variable_line v = v.name ++ lit " = " ++ v.value) ∧
    (∀ v : Variable, striEq v.name (lit "CC") = false →
        striEq v.name (lit "CFLAGS") = false →
        sas_variable_line FORMAT_SAS_C v = v.name ++ lit " = " ++ v.value) ∧
    (∀ v : Variable, striEq v.name (lit "CC") = false →
        striEq v.name (lit "CFLAGS") = true →
        sas_variable_line FORMAT_SAS_C v = lit "CFLAGS = " ++ v.value) ∧
    (∀ v : Variable, striEq v.name (lit "CC") = false →
        dice_variable_line v = v.name ++ lit " = " ++ v.value) ∧
    (∀ v : Variable, striEq v.name (lit "CC") = false →
        lattice_variable_line v = v.name ++ lit " = " ++ v.value) ∧
    (∀ r : Rule, r.is_pattern_rule = false →
        gnu_rule_header FORMAT_GNU_MAKE r =
          [r.targets ++ lit ": " ++ r.dependencies]) ∧
    (∀ r : Rule, r.is_pattern_rule = false →
        sas_rule_header FORMAT_SAS_C r =
          [r.targets ++ lit ": " ++ r.dependencies]) ∧
    (∀ r : Rule, r.is_pattern_rule = false → r.is_dice_form4 = false →
        dice_rule_header FORMAT_DICE r =
          [r.targets ++ lit ": " ++ r.dependencies]) ∧
    (∀ r : Rule, r.is_pattern_rule = false →
        lattice_rule_header FORMAT_LATTICE r =
          [r.targets ++ lit ": " ++ r.dependencies]) := by
  refine ⟨?_, ?_, ?_, ?_, ?_, ?_, ?_, ?_, ?_, ?_⟩
  · intro flags f
    simp [convert_cflags]
  · intro v h
    simp [gnu_variable_line, h]
  · intro v h1 h2
    simp [sas_variable_line, h1, h2]
  · intro v h1 h2
    simp [sas_variable_line, h1, h2, convert_cflags]
  · intro v h
    simp [dice_variable_line, h]
  · intro v h
    simp [lattice_variable_line, h]
  · intro r h
    simp [gnu_rule_header, h]
  · intro r h
    simp [sas_rule_header, h]
  · intro r h1 h2
    simp [dice_rule_header, h1, h2]
  · intro r h
    simp [lattice_rule_header, h]

/-- Witness for C5: identity of the self-mapping pass and unchanged
emission at concrete inputs. -/
theorem c5_self_conversion_witness :
    convert_cflags (lit "-O2 -w") FORMAT_GNU_MAKE FORMAT_GNU_MAKE =
      lit "-O2 -w" ∧
    (striEq (lit "OBJ") (lit "CC") = false ∧
     gnu_variable_line ⟨lit "OBJ", lit "a.o b.o", false⟩ =
       lit "OBJ" ++ lit " = " ++ lit "a.o b.o") ∧
    ((⟨lit "all", lit "a.o", [], false, false⟩ : Rule).is_pattern_rule = false ∧
     sas_rule_header FORMAT_SAS_C ⟨lit "all", lit "a.o", [], false, false⟩ =
       [lit "all" ++ lit ": " ++ lit "a.o"]) :=
  ⟨c5_self_conversion.1 (lit "-O2 -w") FORMAT_GNU_MAKE,
   ⟨by decide, c5_self_conversion.2.1 ⟨lit "OBJ", lit "a.o b.o", false⟩ (by decide)⟩,
   ⟨by decide, c5_self_conversion.2.2.2.2.2.2.2.1
      ⟨lit "all", lit "a.o", [], false, false⟩ (by decide)⟩⟩

/-- Claim C7 (amended): a line beginning with the dialect's comment leader
stores the trimmed line in the comment store without closing an open rule
(the rest of the state is untouched), but the store keeps only the most
recent comment (each store re-creates the zero-filled array), and the
emitted output is entirely independent of the stored comments — no emitter
ever reproduces them, as the counterexample shows. -/
theorem c7_comments :
    (∀ (st : ParseState) (l : Str), trim_whitespace l ≠ [] →
        (trim_whitespace l).head? = some '#' →
        parse_gnu_line st l =
          { st with makefile := storeComment st.makefile (trim_whitespace l) }) ∧
    (∀ (st : ParseState) (l : Str), trim_whitespace l ≠ [] →
        (trim_whitespace l).head? = some ';' →
        parse_sas_line st l =
          { st with makefile := storeComment st.makefile (trim_whitespace l) }) ∧
    (∀ (st : ParseState) (l : Str), trim_whitespace l ≠ [] →
        (trim_whitespace l).head? = some '#' →
        parse_dice_line st l =
          { st with makefile := storeComment st.makefile (trim_whitespace l) }) ∧
    (∀ st : LatState, trim_whitespace st.full_line ≠ [] →
        (trim_whitespace st.full_line).head? = some ';' →
        processLat st =
          { st with
              makefile := storeComment st.makefile
                (trim_whitespace st.full_line) }) ∧
    (∀ (m : Makefile) (c : List (Option Str)) (t : MakefileFormat),
        convert_makefile { m with comments := c } t = convert_makefile m t) := by
  refine ⟨?_, ?_, ?_, ?_, ?_⟩
  · intro st l h1 h2
    simp [parse_gnu_line, h1, h2]
  · intro st l h1 h2
    simp [parse_sas_line, h1, h2]
  · intro st l h1 h2
    simp [parse_dice_line, h1, h2]
  · intro st h1 h2
    simp [processLat, h1, h2]
  · intro m c t
    cases t <;> rfl

/-- Witness for C7: the comment step and comment-independence at concrete
inputs. -/
theorem c7_comments_witness :
    (trim_whitespace (lit "# note") ≠ [] ∧
     (trim_whitespace (lit "# note")).head? = some '#' ∧
     parse_gnu_line ⟨emptyMakefile FORMAT_GNU_MAKE, false⟩ (lit "# note") =
       ⟨storeComment (emptyMakefile FORMAT_GNU_MAKE)
          (trim_whitespace (lit "# note")), false⟩) ∧
    convert_makefile
        { emptyMakefile FORMAT_GNU_MAKE with comments := [some (lit "# x")] }
        FORMAT_DICE =
      convert_makefile (emptyMakefile FORMAT_GNU_MAKE) FORMAT_DICE :=
  ⟨⟨by decide, by decide,
    c7_comments.1 ⟨emptyMakefile FORMAT_GNU_MAKE, false⟩ (lit "# note")
      (by decide) (by decide)⟩,
   c7_comments.2.2.2.2 (emptyMakefile FORMAT_GNU_MAKE) [some (lit "# x")]
     FORMAT_DICE⟩


/-- How one parser step may change the rule list: unchanged, one new rule
with no commands appended at the end, or one command appended to the last
rule.  Commands are thus only ever attached to the most recently appended
rule. -/
def RulesEvolve (old new : List Rule) : Prop :=
  new = old ∨
  (∃ r, r.commands = [] ∧ new = old ++ [r]) ∨
  (∃ r c, old.getLast? = some r ∧
      new = old.dropLast ++ [{ r with commands := r.commands ++ [c] }])

/-- `appendCmdLast` evolves the rule list by a last-rule command append at
most. -/
theorem appendCmdLast_evolve (m : Makefile) (c : Str) :
    RulesEvolve m.rules (appendCmdLast m c).rules := by
  unfold appendCmdLast
  split
  · exact Or.inl rfl
  · rename_i r hr
    split
    · exact Or.inr (Or.inr ⟨r, ⟨c, false⟩, hr, rfl⟩)
    · exact Or.inl rfl

/-- One GNU parser step evolves the rule list as described by
`RulesEvolve`. -/
theorem parse_gnu_line_evolve (st : ParseState) (l : Str) :
    RulesEvolve st.makefile.rules (parse_gnu_line st l).makefile.rules := by
  simp only [parse_gnu_line]
  split
  · exact Or.inl rfl
  · split
    · exact Or.inl (storeComment_vars_rules _ _).2.1
    · split
      · exact Or.inl (appendVar_rules _ _).1
      · split
        · split
          · exact Or.inr (Or.inl ⟨_, rfl, rfl⟩)
          · exact Or.inl rfl
        · split
          · split
            · exact Or.inl rfl
            · exact appendCmdLast_evolve _ _
          · exact Or.inl rfl

/-- One SAS/C parser step evolves the rule list as described by
`RulesEvolve`. -/
theorem parse_sas_line_evolve (st : ParseState) (l : Str) :
    RulesEvolve st.makefile.rules (parse_sas_line st l).makefile.rules := by
  simp only [parse_sas_line]
  split
  · exact Or.inl rfl
  · split
    · exact Or.inl (storeComment_vars_rules _ _).2.1
    · split
      · exact Or.inl (appendVar_rules _ _).1
      · split
        · split
          · exact Or.inr (Or.inl ⟨_, rfl, rfl⟩)
          · exact Or.inl rfl
        · split
          · split
            · exact Or.inr (Or.inl ⟨_, rfl, rfl⟩)
            · exact Or.inl rfl
          · split
            · split
              · exact Or.inl rfl
              · exact appendCmdLast_evolve _ _
            · exact Or.inl rfl

/-- One DICE parser step evolves the rule list as described by
`RulesEvolve`. -/
theorem parse_dice_line_evolve (st : ParseState) (l : Str) :
    RulesEvolve st.makefile.rules (parse_dice_line st l).makefile.rules := by
  simp only [parse_dice_line]
  split
  · exact Or.inl rfl
  · split
    · exact Or.inl (storeComment_vars_rules _ _).2.1
    · split
      · exact Or.inl (appendVar_rules _ _).1
      · split
        · split
          · exact Or.inr (Or.inl ⟨_, rfl, rfl⟩)
          · exact Or.inl rfl
        · split
          · split
            · exact Or.inr (Or.inl ⟨_, rfl, rfl⟩)
            · exact Or.inl rfl
          · split
            · split
              · exact Or.inl rfl
              · exact appendCmdLast_evolve _ _
            · exact Or.inl rfl

/-- Processing one Lattice logical line evolves the rule list as described
by `RulesEvolve`. -/
theorem processLat_evolve (st : LatState) :
    RulesEvolve st.makefile.rules (processLat st).makefile.rules := by
  simp only [processLat]
  split
  · split
    · exact Or.inl rfl
    · exact Or.inl rfl
  · split
    · exact Or.inl (storeComment_vars_rules _ _).2.1
    · split
      · exact Or.inl rfl
      · split
        · exact Or.inl (appendVar_rules _ _).1
        · split
          · split
            · exact Or.inr (Or.inl ⟨_, rfl, rfl⟩)
            · exact Or.inl rfl
          · split
            · split
              · exact Or.inr (Or.inl ⟨_, rfl, rfl⟩)
              · exact Or.inl rfl
            · split
              · split
                · exact Or.inl rfl
                · exact appendCmdLast_evolve _ _
              · split
                · split
                  · exact appendCmdLast_evolve _ _
                  · exact Or.inl rfl
                · exact Or.inl rfl


/-- An option matching no guard of the Lattice-to-SAS/C chain passes
through unchanged. -/
theorem map_lattice_to_sas_pass (o : Str) (h : lattice_table_match o = false) :
    map_lattice_to_sas o = o := by
  simp only [lattice_table_match, Bool.or_eq_false_iff, and_assoc] at h
  obtain ⟨h1, h2, h3, h4, h5, h6, h7, h8, h9, h10, h11, h12, h13, h14⟩ := h
  simp [map_lattice_to_sas, h1, h2, h3, h4, h5, h6, h7, h8, h9, h10, h11,
    h12, h13, h14]

/-- An option matching no guard of the Lattice-to-DICE chain passes
through unchanged. -/
theorem map_lattice_to_dice_pass (o : Str) (h : lattice_table_match o = false) :
    map_lattice_to_dice o = o := by
  simp only [lattice_table_match, Bool.or_eq_false_iff, and_assoc] at h
  obtain ⟨h1, h2, h3, h4, h5, h6, h7, h8, h9, h10, h11, h12, h13, h14⟩ := h
  simp [map_lattice_to_dice, h1, h2, h3, h4, h5, h6, h7, h8, h9, h10, h11,
    h12, h13, h14]

/-- An option matching no guard of the Lattice-to-GNU chain passes through
unchanged. -/
theorem map_lattice_to_gnu_pass (o : Str) (h : lattice_table_match o = false) :
    map_lattice_to_gnu o = o := by
  simp only [lattice_table_match, Bool.or_eq_false_iff, and_assoc] at h
  obtain ⟨h1, h2, h3, h4, h5, h6, h7, h8, h9, h10, h11, h12, h13, h14⟩ := h
  simp [map_lattice_to_gnu, h1, h2, h3, h4, h5, h6, h7, h8, h9, h10, h11,
    h12, h13, h14]

/-- An option matching no guard of the SAS/C-source chain passes through
unchanged, for every target. -/
theorem map_sas_option_pass (o : Str) (t : MakefileFormat)
    (h : sas_table_match o = false) : map_sas_option o t = o := by
  simp only [sas_table_match, Bool.or_eq_false_iff, and_assoc] at h
  obtain ⟨h1, h2, h3, h4, h5, h6, h7, h8, h9, h10, h11⟩ := h
  simp [map_sas_option, h1, h2, h3, h4, h5, h6, h7, h8, h9, h10, h11]

/-- An option matching no guard of the DICE-source chain passes through
unchanged, for every target. -/
theorem map_dice_option_pass (o : Str) (t : MakefileFormat)
    (h : dice_table_match o = false) : map_dice_option o t = o := by
  simp only [dice_table_match, Bool.or_eq_false_iff, and_assoc] at h
  obtain ⟨h1, h2, h3, h4, h5, h6, h7, h8, h9⟩ := h
  simp [map_dice_option, h1, h2, h3, h4, h5, h6, h7, h8, h9]

/-- An option matching no guard of the GNU-source chain passes through
unchanged, for every target. -/
theorem map_gnu_option_pass (o : Str) (t : MakefileFormat)
    (h : gnu_table_match o = false) : map_gnu_option o t = o := by
  simp only [gnu_table_match, Bool.or_eq_false_iff, and_assoc] at h
  obtain ⟨h1, h2, h3, h4, h5, h6, h7, h8, h9⟩ := h
  simp [map_gnu_option, h1, h2, h3, h4, h5, h6, h7, h8, h9]

/-- Pass-through of `map_compiler_option` for every pair and every
unmatched option. -/
theorem map_compiler_option_pass (o : Str) (f t : MakefileFormat)
    (h : table_match o f t = false) : map_compiler_option o f t = o := by
  cases f with
  | FORMAT_UNKNOWN => simp [map_compiler_option]
  | FORMAT_GNU_MAKE =>
    simp only [table_match] at h
    simp only [map_compiler_option]
    norm_num at h ⊢
    exact map_gnu_option_pass o t h
  | FORMAT_SAS_C =>
    simp only [table_match] at h
    simp only [map_compiler_option]
    norm_num at h ⊢
    exact map_sas_option_pass o t h
  | FORMAT_DICE =>
    simp only [table_match] at h
    simp only [map_compiler_option]
    norm_num at h ⊢
    exact map_dice_option_pass o t h
  | FORMAT_LATTICE =>
    cases t with
    | FORMAT_SAS_C =>
      simp only [table_match] at h
      simp only [map_compiler_option]
      norm_num at h ⊢
      exact map_lattice_to_sas_pass o h
    | FORMAT_DICE =>
      simp only [table_match] at h
      simp only [map_compiler_option]
      norm_num at h ⊢
      exact map_lattice_to_dice_pass o h
    | FORMAT_GNU_MAKE =>
      simp only [table_match] at h
      simp only [map_compiler_option]
      norm_num at h ⊢
      exact map_lattice_to_gnu_pass o h
    | FORMAT_LATTICE => simp [map_compiler_option]
    | FORMAT_UNKNOWN => simp [map_compiler_option]

/-- A token mapped to the empty string contributes nothing to the
converted token list. -/
theorem convertTokens_drop (f t : MakefileFormat) (pre post : List Str)
    (o : Str) (h : map_compiler_option o f t = []) :
    convertTokens f t (pre ++ o :: post) = convertTokens f t (pre ++ post) := by
  simp [convertTokens, List.map_append, List.filter_append, List.filter_cons, h]

/-- Claim C8: for every ordered (source, target) pair, the compiler-option
mapping returns the input token unchanged for every token matching no
entry of that pair's table; recognized flags with no target equivalent are
mapped to the empty string (for example GNU `-w` to DICE, Lattice
`-DNONAMES` and `-DDEFBLOCKING=...`, SAS/C `NOSTANDARDIO` and `IGN=A` to
DICE), and `convert_cflags` removes every token mapped to the empty string
from the converted flags. -/
theorem c8_option_mapping :
    (∀ (o : Str) (f t : MakefileFormat), table_match o f t = false →
        map_compiler_option o f t = o) ∧
    (∀ (f t : MakefileFormat) (pre post : List Str) (o : Str),
        map_compiler_option o f t = [] →
        convertTokens f t (pre ++ o :: post) = convertTokens f t (pre ++ post)) ∧
    (∀ (flags : Str) (f t : MakefileFormat), f ≠ t →
        convert_cflags flags f t =
          List.intercalate (lit " ") (convertTokens f t (tokenize flags))) ∧
    map_compiler_option (lit "-w") FORMAT_GNU_MAKE FORMAT_DICE = [] ∧
    map_compiler_option (lit "-DNONAMES") FORMAT_LATTICE FORMAT_DICE = [] ∧
    map_compiler_option (lit "-DDEFBLOCKING=512") FORMAT_LATTICE
      FORMAT_SAS_C = [] ∧
    map_compiler_option (lit "NOSTANDARDIO") FORMAT_SAS_C FORMAT_DICE = [] ∧
    map_compiler_option (lit "IGN=A") FORMAT_SAS_C FORMAT_DICE = [] := by
  refine ⟨fun o f t h => map_compiler_option_pass o f t h,
    fun f t pre post o h => convertTokens_drop f t pre post o h,
    fun flags f t h => by simp [convert_cflags, h],
    by decide, by decide, by decide, by decide, by decide⟩

/-- Witness for C8: pass-through of an unrecognized token, removal of a
dropped token, and the flags-conversion pipeline at concrete inputs. -/
theorem c8_option_mapping_witness :
    (table_match (lit "-xyz") FORMAT_GNU_MAKE FORMAT_SAS_C = false ∧
     map_compiler_option (lit "-xyz") FORMAT_GNU_MAKE FORMAT_SAS_C =
       lit "-xyz") ∧
    (map_compiler_option (lit "-w") FORMAT_GNU_MAKE FORMAT_DICE = [] ∧
     convertTokens FORMAT_GNU_MAKE FORMAT_DICE
         [lit "-O2", lit "-w", lit "-c"] =
       convertTokens FORMAT_GNU_MAKE FORMAT_DICE [lit "-O2", lit "-c"]) ∧
    (FORMAT_GNU_MAKE ≠ FORMAT_DICE ∧
     convert_cflags (lit "-O2 -w") FORMAT_GNU_MAKE FORMAT_DICE =
       List.intercalate (lit " ")
         (convertTokens FORMAT_GNU_MAKE FORMAT_DICE (tokenize (lit "-O2 -w")))) :=
  ⟨⟨by decide, c8_option_mapping.1 (lit "-xyz") FORMAT_GNU_MAKE FORMAT_SAS_C
      (by decide)⟩,
   ⟨by decide, c8_option_mapping.2.1 FORMAT_GNU_MAKE FORMAT_DICE
      [lit "-O2"] [lit "-c"] (lit "-w") (by decide)⟩,
   ⟨by decide, c8_option_mapping.2.2.1 (lit "-O2 -w") FORMAT_GNU_MAKE
      FORMAT_DICE (by decide)⟩⟩

/-- The last element of a list survives `List.dropWhile` when it fails the
predicate. -/
theorem getLast?_dropWhile {α : Type} (p : α → Bool) (l : List α) {c : α}
    (h : l.getLast? = some c) (hc : p c = false) :
    (l.dropWhile p).getLast? = some c := by
  induction l with
  | nil => simp at h
  | cons a t ih =>
    rw [List.dropWhile_cons]
    by_cases hpa : p a = true
    · rw [if_pos hpa]
      cases t with
      | nil =>
        have hac : a = c := by simpa using h
        subst hac
        exact absurd hpa (by simp [hc])
      | cons b t2 =>
        exact ih h
    · rw [if_neg hpa]
      exact h

/-- Trimming preserves a non-blank last character. -/
theorem trim_whitespace_getLast (l : Str) {c : Char}
    (h : l.getLast? = some c) (hc : isBlankChar c = false) :
    (trim_whitespace l).getLast? = some c := by
  unfold trim_whitespace
  rw [List.getLast?_reverse]
  have h1 : (l.dropWhile isBlankChar).getLast? = some c :=
    getLast?_dropWhile _ _ h hc
  have h2 : (l.dropWhile isBlankChar).reverse.head? = some c := by
    rw [List.head?_reverse]
    exact h1
  cases hr : (l.dropWhile isBlankChar).reverse with
  | nil => rw [hr] at h2; cases h2
  | cons x xs =>
    rw [hr] at h2
    injection h2 with hx
    subst hx
    rw [List.dropWhile_cons, if_neg (by simp [hc])]
    rfl

/-- The trimmed line never starts with a blank character (so the indented
command-line branch of every parser is dead code). -/
theorem headBlank_trim_whitespace (l : Str) :
    headBlank (trim_whitespace l) = false := by
  cases ht : trim_whitespace l with
  | nil => rfl
  | cons c t =>
    have hpre : trim_whitespace l <+: l.dropWhile isBlankChar := by
      unfold trim_whitespace
      have hsuf := List.dropWhile_suffix
        (l := (l.dropWhile isBlankChar).reverse) isBlankChar
      have hc := List.reverse_prefix.mpr hsuf
      simpa using hc
    rw [ht] at hpre
    obtain ⟨s, hs⟩ := hpre
    have hhead : l.dropWhile isBlankChar = c :: (t ++ s) := by
      rw [← hs]
      rfl
    have hc : isBlankChar c = false := dropWhile_head_false _ _ hhead
    simp [headBlank, hc]

/-- A string ending in a newline is never case-insensitively equal to
`WITH`. -/
theorem striEq_WITH_false (t : Str) (h : t.getLast? = some '\n') :
    striEq t (lit "WITH") = false := by
  cases he : striEq t (lit "WITH") with
  | false => rfl
  | true =>
    exfalso
    have heq : t.map Char.toLower = (lit "WITH").map Char.toLower := by
      have he2 : (t.map Char.toLower == (lit "WITH").map Char.toLower) = true := by
        simpa [striEq] using he
      exact eq_of_beq he2
    have h2 := congrArg List.getLast? heq
    rw [List.getLast?_map, h] at h2
    have h3 : ((lit "WITH").map Char.toLower).getLast? = some 'h' := by decide
    rw [h3] at h2
    exact absurd h2 (by decide)

/-- Quote stripping is inert on a value ending in a newline. -/
theorem strip_quotes_newline (v : Str) (h : v.getLast? = some '\n') :
    strip_quotes v = v := by
  unfold strip_quotes
  rw [h]
  simp

/-- The part after the first occurrence of `d` keeps the last character
when that character differs from `d`. -/
theorem dropWhile_ne_drop_getLast (t : Str) (c d : Char)
    (h : t.getLast? = some c) (hne : d ≠ c) (hmem : strchrB t d = true) :
    ((t.dropWhile (fun x => x ≠ d)).drop 1).getLast? = some c := by
  induction t with
  | nil => simp [strchrB] at hmem
  | cons a ts ih =>
    rw [List.dropWhile_cons]
    by_cases had : a = d
    · rw [if_neg (by simp [had])]
      have hts : ts ≠ [] := by
        intro he
        subst he
        have hac : a = c := by simpa using h
        exact hne (by rw [← had, hac])
      have h2 : ts.getLast? = some c := by
        cases ts with
        | nil => exact absurd rfl hts
        | cons b t2 => exact h
      simpa using h2
    · rw [if_pos (by simp [had])]
      have hmem2 : strchrB ts d = true := by
        simp only [strchrB, List.any_cons] at hmem
        rcases Bool.or_eq_true_iff.mp hmem with h1 | h1
        · exact absurd (by simpa using h1) had
        · exact h1
      have hts : ts ≠ [] := by
        intro he
        subst he
        simp [strchrB] at hmem2
      have h2 : ts.getLast? = some c := by
        cases ts with
        | nil => exact absurd rfl hts
        | cons b t2 => exact h
      exact ih h2 hmem2

/-- A GNU parser step never adds a command to any rule: the indented
command-line branch tests `headBlank` of the trimmed line, which is always
false. -/
theorem parse_gnu_line_cmds (st : ParseState) (l : Str)
    (hb : ∀ r ∈ st.makefile.rules, r.commands = []) :
    ∀ r ∈ (parse_gnu_line st l).makefile.rules, r.commands = [] := by
  simp only [parse_gnu_line]
  split
  · exact hb
  · split
    · rw [(storeComment_vars_rules _ _).2.1]
      exact hb
    · split
      · show ∀ r ∈ (appendVar st.makefile _).rules, r.commands = []
        rw [(appendVar_rules _ _).1]
        exact hb
      · split
        · split
          · intro r hr
            simp only [List.mem_append, List.mem_singleton] at hr
            rcases hr with hr | hr
            · exact hb r hr
            · subst hr
              rfl
          · exact hb
        · split
          · rename_i hcond
            rw [headBlank_trim_whitespace] at hcond
            simp at hcond
          · exact hb

/-- A SAS/C parser step never adds a command to any rule. -/
theorem parse_sas_line_cmds (st : ParseState) (l : Str)
    (hb : ∀ r ∈ st.makefile.rules, r.commands = []) :
    ∀ r ∈ (parse_sas_line st l).makefile.rules, r.commands = [] := by
  simp only [parse_sas_line]
  split
  · exact hb
  · split
    · rw [(storeComment_vars_rules _ _).2.1]
      exact hb
    · split
      · show ∀ r ∈ (appendVar st.makefile _).rules, r.commands = []
        rw [(appendVar_rules _ _).1]
        exact hb
      · split
        · split
          · intro r hr
            simp only [List.mem_append, List.mem_singleton] at hr
            rcases hr with hr | hr
            · exact hb r hr
            · subst hr
              rfl
          · exact hb
        · split
          · split
            · intro r hr
              simp only [List.mem_append, List.mem_singleton] at hr
              rcases hr with hr | hr
              · exact hb r hr
              · subst hr
                rfl
            · exact hb
          · split
            · rename_i hcond
              rw [headBlank_trim_whitespace] at hcond
              simp at hcond
            · exact hb

/-- A DICE parser step never adds a command to any rule. -/
theorem parse_dice_line_cmds (st : ParseState) (l : Str)
    (hb : ∀ r ∈ st.makefile.rules, r.commands = []) :
    ∀ r ∈ (parse_dice_line st l).makefile.rules, r.commands = [] := by
  simp only [parse_dice_line]
  split
  · exact hb
  · split
    · rw [(storeComment_vars_rules _ _).2.1]
      exact hb
    · split
      · show ∀ r ∈ (appendVar st.makefile _).rules, r.commands = []
        rw [(appendVar_rules _ _).1]
        exact hb
      · split
        · split
          · intro r hr
            simp only [List.mem_append, List.mem_singleton] at hr
            rcases hr with hr | hr
            · exact hb r hr
            · subst hr
              rfl
          · exact hb
        · split
          · split
            · intro r hr
              simp only [List.mem_append, List.mem_singleton] at hr
              rcases hr with hr | hr
              · exact hb r hr
              · subst hr
                rfl
            · exact hb
          · split
            · rename_i hcond
              rw [headBlank_trim_whitespace] at hcond
              simp at hcond
            · exact hb

/-- Processing a Lattice logical line never adds a command to any rule
while no `WITH` options block is open. -/
theorem processLat_cmds (st : LatState) (hw : st.in_with = false)
    (hb : ∀ r ∈ st.makefile.rules, r.commands = []) :
    ∀ r ∈ (processLat st).makefile.rules, r.commands = [] := by
  simp only [processLat]
  split
  · split
    · exact hb
    · exact hb
  · split
    · rw [(storeComment_vars_rules _ _).2.1]
      exact hb
    · split
      · exact hb
      · split
        · show ∀ r ∈ (appendVar st.makefile _).rules, r.commands = []
          rw [(appendVar_rules _ _).1]
          exact hb
        · split
          · split
            · intro r hr
              simp only [List.mem_append, List.mem_singleton] at hr
              rcases hr with hr | hr
              · exact hb r hr
              · subst hr
                rfl
            · exact hb
          · split
            · split
              · intro r hr
                simp only [List.mem_append, List.mem_singleton] at hr
                rcases hr with hr | hr
                · exact hb r hr
                · subst hr
                  rfl
              · exact hb
            · split
              · rename_i hcond
                rw [headBlank_trim_whitespace] at hcond
                simp at hcond
              · split
                · rename_i hcond
                  rw [hw] at hcond
                  cases hcond
                · exact hb

/-- `processLat` never changes the continuation flag. -/
theorem processLat_in_cont (st : LatState) :
    (processLat st).in_cont = st.in_cont := by
  simp only [processLat]
  split
  · split <;> rfl
  · split
    · rfl
    · split
      · rfl
      · split
        · rfl
        · split
          · split <;> rfl
          · split
            · split <;> rfl
            · split
              · split <;> rfl
              · split
                · split <;> rfl
                · rfl

/-- On a newline-terminated logical line, `processLat` keeps the `WITH`
flag closed: the `WITH` keyword test cannot succeed. -/
theorem processLat_in_with_false (st : LatState) (hw : st.in_with = false)
    (hl : st.full_line.getLast? = some '\n') :
    (processLat st).in_with = false := by
  have ht : (trim_whitespace st.full_line).getLast? = some '\n' :=
    trim_whitespace_getLast _ hl (by decide)
  have hW : striEq (trim_whitespace st.full_line) (lit "WITH") = false :=
    striEq_WITH_false _ ht
  simp only [processLat]
  split
  · split
    · rfl
    · exact hw
  · split
    · exact hw
    · split
      · rename_i hcond
        rw [hW] at hcond
        cases hcond
      · split
        · exact hw
        · split
          · split <;> exact hw
          · split
            · split <;> exact hw
            · split
              · split <;> exact hw
              · split
                · split <;> exact hw
                · exact hw

/-- Processing a newline-terminated physical line keeps the `WITH` and
continuation flags closed: such a line cannot end in a backslash and its
buffered content ends in the newline. -/
theorem parse_lattice_line_state (st : LatState) (l : Str)
    (hw : st.in_with = false) (hc : st.in_cont = false)
    (hl : l.getLast? = some '\n') :
    (parse_lattice_line st l).in_with = false ∧
    (parse_lattice_line st l).in_cont = false := by
  simp only [parse_lattice_line]
  split
  · rename_i hcond
    rw [hl] at hcond
    simp at hcond
  · split
    · rename_i hcond
      rw [hl] at hcond
      simp at hcond
    · split
      · rename_i hcond
        rw [hc] at hcond
        cases hcond
      · exact ⟨processLat_in_with_false _ hw hl,
          by rw [processLat_in_cont]; exact hc⟩

/-- Folding the Lattice parser over newline-terminated lines keeps the
`WITH` and continuation flags closed. -/
theorem lat_fold_state (lines : List Str) : ∀ st : LatState,
    (∀ l ∈ lines, l.getLast? = some '\n') →
    st.in_with = false → st.in_cont = false →
    (lines.foldl parse_lattice_line st).in_with = false ∧
    (lines.foldl parse_lattice_line st).in_cont = false := by
  induction lines with
  | nil =>
    intro st _ hw hc
    exact ⟨hw, hc⟩
  | cons a t ih =>
    intro st hall hw hc
    have ha : a.getLast? = some '\n' := hall a (List.mem_cons_self a t)
    have hst := parse_lattice_line_state st a hw hc ha
    exact ih _ (fun l hl => hall l (List.mem_cons_of_mem a hl)) hst.1 hst.2

/-- A Lattice parser step never adds a command while no options block is
open (regardless of the line's shape). -/
theorem parse_lattice_line_cmds (st : LatState) (l : Str)
    (hw : st.in_with = false)
    (hb : ∀ r ∈ st.makefile.rules, r.commands = []) :
    ∀ r ∈ (parse_lattice_line st l).makefile.rules, r.commands = [] := by
  simp only [parse_lattice_line]
  split
  · exact hb
  · split
    · exact processLat_cmds st hw hb
    · split
      · exact processLat_cmds _ hw hb
      · exact processLat_cmds _ hw hb

/-- Folding the Lattice parser over a file whose non-final lines are
newline-terminated leaves every rule's command list empty. -/
theorem lat_fold_cmds (lines : List Str) : ∀ st : LatState,
    (∀ l ∈ lines.dropLast, l.getLast? = some '\n') →
    st.in_with = false → st.in_cont = false →
    (∀ r ∈ st.makefile.rules, r.commands = []) →
    ∀ r ∈ (lines.foldl parse_lattice_line st).makefile.rules,
      r.commands = [] := by
  induction lines with
  | nil =>
    intro st _ _ _ hb
    exact hb
  | cons a t ih =>
    intro st hall hw hc hb
    cases t with
    | nil => exact parse_lattice_line_cmds st a hw hb
    | cons b t2 =>
      have ha : a.getLast? = some '\n' := by
        apply hall
        exact List.mem_cons_self _ _
      have hst := parse_lattice_line_state st a hw hc ha
      apply ih _ _ hst.1 hst.2 (parse_lattice_line_cmds st a hw hb)
      intro l hl
      apply hall
      exact List.mem_cons_of_mem a hl

/-- Counterexample to claim C3 as stated: lines are read with their
terminating newline and trimming removes only spaces and tabs, so even in
the GNU parser the value of `FOO="bar"` keeps its quotes and its newline
(no quote layer is stripped), and the value of `A=1 ` keeps the trailing
blank before the newline (the value is not right-trimmed). -/
theorem c3_counterexample :
    (parse_gnu_makefile [lit "FOO=\"bar\"\n"]).vars =
      [⟨lit "FOO", lit "\"bar\"\n", false⟩] ∧
    (parse_gnu_makefile [lit "A=1 \n"]).vars =
      [⟨lit "A", lit "1 \n", false⟩] ∧
    lit "\"bar\"\n" ≠ lit "bar" ∧ lit "1 \n" ≠ lit "1" := by
  exact ⟨by decide, by decide, by decide, by decide⟩

/-- Claim C3 (amended): in every dialect parser, a line that contains `=`
and no `:` (and is not a comment line) is split on the first `=`, the name
side is trimmed on both sides, a Variable is appended (immediate only in
the DICE parser) and any open rule is closed; but on every
newline-terminated line the value keeps its trailing blanks and its
newline — it is only left-trimmed — and the GNU parser's quote stripping
never fires (the appended value is the unstripped right side, which still
ends in the newline); full right-trimming and GNU quote stripping can only
occur on a file's final newline-less line, as the last two conjuncts show
on concrete final lines. -/
theorem c3_variable_assignment :
    (∀ (st : ParseState) (l : Str), l.getLast? = some '\n' →
        (trim_whitespace l).head? ≠ some '#' →
        strchrB (trim_whitespace l) '=' = true →
        strchrB (trim_whitespace l) ':' = false →
        (trim_whitespace (splitAtChar (trim_whitespace l) '=').2).getLast? =
          some '\n' ∧
        parse_gnu_line st l =
          { makefile := appendVar st.makefile
              ⟨trim_whitespace (splitAtChar (trim_whitespace l) '=').1,
               trim_whitespace (splitAtChar (trim_whitespace l) '=').2,
               false⟩,
            in_rule := false }) ∧
    (∀ (st : ParseState) (l : Str), l.getLast? = some '\n' →
        (trim_whitespace l).head? ≠ some ';' →
        strchrB (trim_whitespace l) '=' = true →
        strchrB (trim_whitespace l) ':' = false →
        (trim_whitespace (splitAtChar (trim_whitespace l) '=').2).getLast? =
          some '\n' ∧
        parse_sas_line st l =
          { makefile := appendVar st.makefile
              ⟨trim_whitespace (splitAtChar (trim_whitespace l) '=').1,
               trim_whitespace (splitAtChar (trim_whitespace l) '=').2,
               false⟩,
            in_rule := false }) ∧
    (∀ (st : ParseState) (l : Str), l.getLast? = some '\n' →
        (trim_whitespace l).head? ≠ some '#' →
        strchrB (trim_whitespace l) '=' = true →
        strchrB (trim_whitespace l) ':' = false →
        (trim_whitespace (splitAtChar (trim_whitespace l) '=').2).getLast? =
          some '\n' ∧
        parse_dice_line st l =
          { makefile := appendVar st.makefile
              ⟨trim_whitespace (splitAtChar (trim_whitespace l) '=').1,
               trim_whitespace (splitAtChar (trim_whitespace l) '=').2,
               true⟩,
            in_rule := false }) ∧
    (∀ st : LatState, st.full_line.getLast? = some '\n' →
        (trim_whitespace st.full_line).head? ≠ some ';' →
        strchrB (trim_whitespace st.full_line) '=' = true →
        strchrB (trim_whitespace st.full_line) ':' = false →
        processLat st =
          { st with
            makefile := appendVar st.makefile
              ⟨trim_whitespace (splitAtChar (trim_whitespace st.full_line) '=').1,
               trim_whitespace (splitAtChar (trim_whitespace st.full_line) '=').2,
               false⟩
            in_rule := false }) ∧
    (parse_gnu_makefile [lit "FOO=\"bar\""]).vars =
      [⟨lit "FOO", lit "bar", false⟩] ∧
    (parse_sas_makefile [lit "FOO=\"bar\""]).vars =
      [⟨lit "FOO", lit "\"bar\"", false⟩] := by
  refine ⟨?_, ?_, ?_, ?_, by decide, by decide⟩
  · intro st l hl h2 h3 h4
    have ht : (trim_whitespace l).getLast? = some '\n' :=
      trim_whitespace_getLast l hl (by decide)
    have h1 : trim_whitespace l ≠ [] := by
      intro he
      rw [he] at ht
      cases ht
    have hv : (trim_whitespace (splitAtChar (trim_whitespace l) '=').2).getLast? =
        some '\n' :=
      trim_whitespace_getLast _
        (dropWhile_ne_drop_getLast _ _ _ ht (by decide) h3) (by decide)
    have hsq : strip_quotes
        (trim_whitespace (splitAtChar (trim_whitespace l) '=').2) =
        trim_whitespace (splitAtChar (trim_whitespace l) '=').2 :=
      strip_quotes_newline _ hv
    exact ⟨hv, by simp [parse_gnu_line, h1, h2, h3, h4, hsq]⟩
  · intro st l hl h2 h3 h4
    have ht : (trim_whitespace l).getLast? = some '\n' :=
      trim_whitespace_getLast l hl (by decide)
    have h1 : trim_whitespace l ≠ [] := by
      intro he
      rw [he] at ht
      cases ht
    have hv : (trim_whitespace (splitAtChar (trim_whitespace l) '=').2).getLast? =
        some '\n' :=
      trim_whitespace_getLast _
        (dropWhile_ne_drop_getLast _ _ _ ht (by decide) h3) (by decide)
    exact ⟨hv, by simp [parse_sas_line, h1, h2, h3, h4]⟩
  · intro st l hl h2 h3 h4
    have ht : (trim_whitespace l).getLast? = some '\n' :=
      trim_whitespace_getLast l hl (by decide)
    have h1 : trim_whitespace l ≠ [] := by
      intro he
      rw [he] at ht
      cases ht
    have hv : (trim_whitespace (splitAtChar (trim_whitespace l) '=').2).getLast? =
        some '\n' :=
      trim_whitespace_getLast _
        (dropWhile_ne_drop_getLast _ _ _ ht (by decide) h3) (by decide)
    exact ⟨hv, by simp [parse_dice_line, h1, h2, h3, h4]⟩
  · intro st hl h2 h3 h4
    have ht : (trim_whitespace st.full_line).getLast? = some '\n' :=
      trim_whitespace_getLast _ hl (by decide)
    have h1 : trim_whitespace st.full_line ≠ [] := by
      intro he
      rw [he] at ht
      cases ht
    have hW : striEq (trim_whitespace st.full_line) (lit "WITH") = false :=
      striEq_WITH_false _ ht
    simp [processLat, h1, h2, hW, h3, h4]

/-- Witness for C3: the newline-terminated variable branch at a concrete
GNU input, with the value keeping its newline. -/
theorem c3_variable_assignment_witness :
    ((lit "CC=gcc\n").getLast? = some '\n' ∧
     (trim_whitespace (lit "CC=gcc\n")).head? ≠ some '#' ∧
     strchrB (trim_whitespace (lit "CC=gcc\n")) '=' = true ∧
     strchrB (trim_whitespace (lit "CC=gcc\n")) ':' = false) ∧
    (trim_whitespace (splitAtChar (trim_whitespace (lit "CC=gcc\n")) '=').2).getLast? =
      some '\n' ∧
    parse_gnu_line ⟨emptyMakefile FORMAT_GNU_MAKE, true⟩ (lit "CC=gcc\n") =
      { makefile := appendVar (emptyMakefile FORMAT_GNU_MAKE)
          ⟨trim_whitespace (splitAtChar (trim_whitespace (lit "CC=gcc\n")) '=').1,
           trim_whitespace (splitAtChar (trim_whitespace (lit "CC=gcc\n")) '=').2,
           false⟩,
        in_rule := false } :=
  ⟨⟨by decide, by decide, by decide, by decide⟩,
   c3_variable_assignment.1 ⟨emptyMakefile FORMAT_GNU_MAKE, true⟩
     (lit "CC=gcc\n") (by decide) (by decide) (by decide) (by decide)⟩

/-- Claim C4: a blank input line — one that trims to nothing (a final
newline-less blank) or to a lone newline (the `FGets` form of every other
blank line) — always closes the currently open rule in every parser; in
the Lattice parser the `WITH` options-block flag provably stays closed
while any newline-terminated line is processed, so a blank line is never
read with an open options block (the parenthetical closing of an open
block is vacuous); on every input whose non-final lines are
newline-terminated, no Command is ever attached to any Rule at all, so in
particular no Command read after a blank line is attached to a Rule opened
before it, and the per-step rule-list evolution shows commands could only
ever attach to the most recently appended rule. -/
theorem c4_blank_line_rules :
    (∀ (st : ParseState) (l : Str),
        trim_whitespace l = [] ∨ trim_whitespace l = ['\n'] →
        parse_gnu_line st l = { st with in_rule := false } ∧
        parse_sas_line st l = { st with in_rule := false } ∧
        parse_dice_line st l = { st with in_rule := false }) ∧
    (∀ (st : LatState) (l : Str), st.in_with = false → st.in_cont = false →
        (trim_whitespace l = [] →
          parse_lattice_line st l = { st with in_rule := false, full_line := l }) ∧
        (trim_whitespace l = ['\n'] →
          parse_lattice_line st l = { st with in_rule := false, full_line := [] })) ∧
    (∀ (lines : List Str) (st : LatState),
        (∀ l ∈ lines, l.getLast? = some '\n') →
        st.in_with = false → st.in_cont = false →
        (lines.foldl parse_lattice_line st).in_with = false) ∧
    (∀ (fmt : MakefileFormat) (lines : List Str) (m : Makefile),
        parse_makefile fmt lines = some m →
        (∀ l ∈ lines.dropLast, l.getLast? = some '\n') →
        ∀ r ∈ m.rules, r.commands = []) ∧
    (∀ (st : ParseState) (l : Str),
        RulesEvolve st.makefile.rules (parse_gnu_line st l).makefile.rules ∧
        RulesEvolve st.makefile.rules (parse_sas_line st l).makefile.rules ∧
        RulesEvolve st.makefile.rules (parse_dice_line st l).makefile.rules) ∧
    (∀ st : LatState,
        RulesEvolve st.makefile.rules (processLat st).makefile.rules) := by
  have e1 : ¬((['\n'] : Str) = []) := by decide
  have e2 : ¬((['\n'] : Str).head? = some '#') := by decide
  have e2s : ¬((['\n'] : Str).head? = some ';') := by decide
  have e3 : strchrB ['\n'] '=' = false := by decide
  have e4 : strchrB ['\n'] ':' = false := by decide
  have e5 : headBlank ['\n'] = false := by decide
  have e6 : strstrB ['\n'] (lit ".c.o:") = false := by decide
  have e6b : strstrB ['\n'] (lit ".s.o:") = false := by decide
  have e7 : strstrB ['\n'] (lit "::") = false := by decide
  have eW : striEq ['\n'] (lit "WITH") = false := by decide
  refine ⟨?_, ?_, ?_, ?_, ?_, ?_⟩
  · intro st l h
    rcases h with h | h
    · exact ⟨by simp [parse_gnu_line, h], by simp [parse_sas_line, h],
        by simp [parse_dice_line, h]⟩
    · exact ⟨by simp [parse_gnu_line, h, e1, e2, e3, e4, e5],
        by simp [parse_sas_line, h, e1, e2s, e3, e4, e5, e6, e6b],
        by simp [parse_dice_line, h, e1, e2, e3, e4, e5, e7]⟩
  · intro st l hw hc
    have hnb : ∀ hcase : trim_whitespace l = [] ∨ trim_whitespace l = ['\n'],
        ¬(l.getLast? = some '\\') := by
      intro hcase hx
      have ht := trim_whitespace_getLast l hx (by decide)
      rcases hcase with h | h <;> rw [h] at ht <;> cases ht
    constructor
    · intro h
      have hb := hnb (Or.inl h)
      simp only [parse_lattice_line]
      rw [if_neg (by simp [hb]), if_neg (by simp [hb]), if_neg (by simp [hc])]
      simp [processLat, h, hw]
    · intro h
      have hb := hnb (Or.inr h)
      simp only [parse_lattice_line]
      rw [if_neg (by simp [hb]), if_neg (by simp [hb]), if_neg (by simp [hc])]
      simp [processLat, h, e1, e2s, eW, e3, e4, e5, e6, e6b, hw]
  · intro lines st hall hw hc
    exact (lat_fold_state lines st hall hw hc).1
  · intro fmt lines m hp hall
    cases fmt with
    | FORMAT_UNKNOWN => cases hp
    | FORMAT_GNU_MAKE =>
      obtain rfl := Option.some.inj hp
      exact foldl_preserve parse_gnu_line
        (fun st => ∀ r ∈ st.makefile.rules, r.commands = [])
        (fun s l hs => parse_gnu_line_cmds s l hs) lines _ (by simp [emptyMakefile])
    | FORMAT_SAS_C =>
      obtain rfl := Option.some.inj hp
      exact foldl_preserve parse_sas_line
        (fun st => ∀ r ∈ st.makefile.rules, r.commands = [])
        (fun s l hs => parse_sas_line_cmds s l hs) lines _ (by simp [emptyMakefile])
    | FORMAT_DICE =>
      obtain rfl := Option.some.inj hp
      exact foldl_preserve parse_dice_line
        (fun st => ∀ r ∈ st.makefile.rules, r.commands = [])
        (fun s l hs => parse_dice_line_cmds s l hs) lines _ (by simp [emptyMakefile])
    | FORMAT_LATTICE =>
      obtain rfl := Option.some.inj hp
      exact lat_fold_cmds lines _ hall rfl rfl (by simp [emptyMakefile])
  · intro st l
    exact ⟨parse_gnu_line_evolve st l, parse_sas_line_evolve st l,
      parse_dice_line_evolve st l⟩
  · intro st
    exact processLat_evolve st

/-- Witness for C4: a realistic blank line closes the open rule in a
concrete GNU state, and a concrete three-line file (rule header, blank
line, indented command, all newline-terminated) parses with no command
attached to any rule. -/
theorem c4_blank_line_rules_witness :
    (trim_whitespace (lit " \n") = ['\n'] ∧
     parse_gnu_line ⟨emptyMakefile FORMAT_GNU_MAKE, true⟩ (lit " \n") =
       ⟨emptyMakefile FORMAT_GNU_MAKE, false⟩) ∧
    (∀ l ∈ ([lit "a: b\n", lit "\n", lit "\tcmd\n"] : List Str).dropLast,
        l.getLast? = some '\n') ∧
    ∀ r ∈ (parse_gnu_makefile [lit "a: b\n", lit "\n", lit "\tcmd\n"]).rules,
      r.commands = [] :=
  ⟨⟨by decide,
    (c4_blank_line_rules.1 ⟨emptyMakefile FORMAT_GNU_MAKE, true⟩ (lit " \n")
      (Or.inr (by decide))).1⟩,
   by decide,
   c4_blank_line_rules.2.2.2.1 FORMAT_GNU_MAKE
     [lit "a: b\n", lit "\n", lit "\tcmd\n"] _ rfl (by decide)⟩
